import Mathlib

/-!
Verification development for the ATA PIO disk driver (`src/disk/ata/ata.c`,
`src/disk/ata/ata.h`).

The driver is embedded shallowly.  Port I/O is abstracted as a record of
state-transition functions (`Ports`), so the driver definitions mirror the C
control flow statement by statement while remaining parametric in the
controller behind the ports.  Every port access, mutual-exclusion guard
transition and `wait_irq` flag write performed by the driver is recorded in an
event trace (`Event`).  Unbounded C busy-wait loops take an explicit fuel
argument and return `Option`, `none` modelling divergence.  Simulated
register/controller doubles (`SimCtrl` for read/write, `ProbeCtrl` for
`ata_get_type`, `constPorts` for bring-up) instantiate the port interface in
the theorems, as the specification's testable properties prescribe.
-/

namespace Ata

/-! Constants from `ata.h`. -/

def ATA_REG_DATA : Nat := 0x0
def ATA_REG_SECTOR_COUNT : Nat := 0x2
def ATA_REG_SECTOR_NUMBER : Nat := 0x3
def ATA_REG_CYLINDER_LOW : Nat := 0x4
def ATA_REG_CYLINDER_HIGH : Nat := 0x5
def ATA_REG_DRIVE : Nat := 0x6
def ATA_REG_STATUS : Nat := 0x7
def ATA_REG_COMMAND : Nat := 0x7
def ATA_CTRL_DEVICE_CONTROL : Nat := 0x0
def ATA_STATUS_ERR : Nat := 0b00000001
def ATA_STATUS_DRQ : Nat := 0b00001000
def ATA_STATUS_RDY : Nat := 0b01000000
def ATA_STATUS_BSY : Nat := 0b10000000
def ATA_CMD_IDENTIFY : Nat := 0xec
def ATA_CMD_READ_SECTORS : Nat := 0x20
def ATA_CMD_WRITE_SECTORS : Nat := 0x30
def ATA_CMD_CACHE_FLUSH : Nat := 0xe7
def ATA_SECTOR_SIZE : Nat := 0x200
def ATA_TYPE_UNKNOWN : Nat := 0x0
def ATA_TYPE_PATA : Nat := 0x1
def ATA_TYPE_PATAPI : Nat := 0x2
def ATA_TYPE_SATA : Nat := 0x3
def ATA_TYPE_SATAPI : Nat := 0x4
def ATA_PRIMARY_BUS : Nat := 0x1f0
def ATA_PRIMARY_CTRL : Nat := 0x3f6

/-- Device record from `ata.h` (`ata_device_t`).  The `next` pointer of the C
struct is modelled by keeping devices in a `List`; the spinlock is a Bool
("held") and `wait_irq` an integer flag as in C. -/
structure ata_device where
  bus : Nat
  ctrl : Nat
  spinlock : Bool
  wait_irq : Nat
  deriving DecidableEq, Repr

/-- Observable actions of the driver: 8/16-bit port reads and writes (with the
value transferred), guard acquire/release, writes to a device's `wait_irq`
flag, and `printf` logging (format string recorded). -/
inductive Event where
  | evInb (port v : Nat)
  | evOutb (port v : Nat)
  | evInw (port v : Nat)
  | evOutw (port v : Nat)
  | evLockAcq
  | evLockRel
  | evFlag (v : Nat)
  | evLog (s : String)
  deriving DecidableEq, Repr

/-- The port-I/O boundary: byte/word read and write to I/O addresses, as
state-transition functions on a controller state `σ`. -/
structure Ports (σ : Type) where
  inb : σ → Nat → Nat × σ
  outb : σ → Nat → Nat → σ
  inw : σ → Nat → Nat × σ
  outw : σ → Nat → Nat → σ

/-- Machine state threaded through the embedded driver code: the controller
state plus the trace of events performed so far. -/
structure M (σ : Type) where
  st : σ
  tr : List Event

/-- Instrumented `inb`: perform the port read and record it. -/
def doInb {σ : Type} (P : Ports σ) (port : Nat) (m : M σ) : Nat × M σ :=
  let p := P.inb m.st port
  (p.1, ⟨p.2, m.tr ++ [Event.evInb port p.1]⟩)

/-- Instrumented `outb`. -/
def doOutb {σ : Type} (P : Ports σ) (port v : Nat) (m : M σ) : M σ :=
  ⟨P.outb m.st port v, m.tr ++ [Event.evOutb port v]⟩

/-- Instrumented `inw`. -/
def doInw {σ : Type} (P : Ports σ) (port : Nat) (m : M σ) : Nat × M σ :=
  let p := P.inw m.st port
  (p.1, ⟨p.2, m.tr ++ [Event.evInw port p.1]⟩)

/-- Instrumented `outw`. -/
def doOutw {σ : Type} (P : Ports σ) (port v : Nat) (m : M σ) : M σ :=
  ⟨P.outw m.st port v, m.tr ++ [Event.evOutw port v]⟩

/-- Record a `printf` call (format string only). -/
def logEv {σ : Type} (s : String) (m : M σ) : M σ :=
  ⟨m.st, m.tr ++ [Event.evLog s]⟩

/-- Record an assignment to a device's `wait_irq` flag. -/
def flagEv {σ : Type} (v : Nat) (m : M σ) : M σ :=
  ⟨m.st, m.tr ++ [Event.evFlag v]⟩

/-! The driver functions, translated from `ata.c`.  Each definition mirrors
the corresponding C function; the comment gives its source line range. -/

/-- `ata_has_err` (ata.c:24-28): `inb(dev->bus + ATA_REG_STATUS) & ATA_STATUS_ERR`. -/
def ata_has_err {σ : Type} (P : Ports σ) (dev : ata_device) (m : M σ) : Nat × M σ :=
  let p := doInb P (dev.bus + ATA_REG_STATUS) m
  (p.1 &&& ATA_STATUS_ERR, p.2)

/-- `ata_wait` (ata.c:54-60): four discarded `inb` reads of `port`. -/
def ata_wait {σ : Type} (P : Ports σ) (port : Nat) (m : M σ) : M σ :=
  let m := (doInb P port m).2
  let m := (doInb P port m).2
  let m := (doInb P port m).2
  (doInb P port m).2

/-- `ata_check_floating_bus` (ata.c:62-65). -/
def ata_check_floating_bus {σ : Type} (P : Ports σ) (bus : Nat) (m : M σ) : Bool × M σ :=
  let p := doInb P (bus + ATA_REG_STATUS) m
  (p.1 = 0xff, p.2)

/-- `ata_is_ready` (ata.c:67-70). -/
def ata_is_ready {σ : Type} (P : Ports σ) (bus : Nat) (m : M σ) : Nat × M σ :=
  let p := doInb P (bus + ATA_REG_STATUS) m
  (p.1 &&& ATA_STATUS_RDY, p.2)

/-- `ata_is_busy` (ata.c:72-75). -/
def ata_is_busy {σ : Type} (P : Ports σ) (bus : Nat) (m : M σ) : Nat × M σ :=
  let p := doInb P (bus + ATA_REG_STATUS) m
  (p.1 &&& ATA_STATUS_BSY, p.2)

/-- The `while(dev->wait_irq && !ata_is_ready(dev->bus)) kernel_wait();` loop
of `ata_wait_ready` (ata.c:80-81).  `&&` short-circuits, so the status read
happens only when the flag is still armed.  `kernel_wait()` is the external
yield primitive and has no modelled effect.  Fuel bounds the number of polls;
`none` models a wait that never observed readiness within the fuel. -/
def ata_wait_ready_loop {σ : Type} (P : Ports σ) :
    Nat → ata_device → M σ → Option (ata_device × M σ)
  | 0, _, _ => none
  | fuel + 1, dev, m =>
    if dev.wait_irq = 0 then some (dev, m)
    else
      let p := ata_is_ready P dev.bus m
      if p.1 = 0 then ata_wait_ready_loop P fuel dev p.2
      else some (dev, p.2)

/-- `ata_wait_ready` (ata.c:77-83): arm the flag, poll until ready or
disarmed, then clear the flag. -/
def ata_wait_ready {σ : Type} (P : Ports σ) (fuel : Nat) (dev : ata_device)
    (m : M σ) : Option (ata_device × M σ) :=
  let dev := {dev with wait_irq := 1}
  let m := flagEv 1 m
  match ata_wait_ready_loop P fuel dev m with
  | none => none
  | some (dev, m) => some ({dev with wait_irq := 0}, flagEv 0 m)

/-- `ata_command` (ata.c:85-88). -/
def ata_command {σ : Type} (P : Ports σ) (bus cmd : Nat) (m : M σ) : M σ :=
  doOutb P (bus + ATA_REG_COMMAND) cmd m

/-- `ata_select_drive` (ata.c:90-93): `outb(bus + ATA_REG_DRIVE, slave ? 0xa0 : 0xb0)`. -/
def ata_select_drive {σ : Type} (P : Ports σ) (bus : Nat) (slave : Bool) (m : M σ) : M σ :=
  doOutb P (bus + ATA_REG_DRIVE) (if slave then 0xa0 else 0xb0) m

/-- `ata_reset` (ata.c:271-280).  Note the C bug kept faithfully: `reg` is a
`uint8_t`, truncating the 16-bit control port base. -/
def ata_reset {σ : Type} (P : Ports σ) (dev? : Option ata_device) (m : M σ) : M σ :=
  match dev? with
  | none => m
  | some dev =>
    let reg := (dev.ctrl + ATA_CTRL_DEVICE_CONTROL) % 256
    let p := doInb P reg m
    let m := doOutb P reg (p.1 ||| 0b100) p.2
    let q := doInb P reg m
    doOutb P reg (q.1 &&& 0xfb) q.2

/-- The `while(ata_is_busy(bus));` raw busy-wait of `ata_identify` (ata.c:109-110). -/
def ata_identify_busy_loop {σ : Type} (P : Ports σ) :
    Nat → Nat → M σ → Option (M σ)
  | 0, _, _ => none
  | fuel + 1, bus, m =>
    let p := ata_is_busy P bus m
    if p.1 ≠ 0 then ata_identify_busy_loop P fuel bus p.2
    else some p.2

/-- The `do status = inb(...); while(!(status & ERR) && !(status & DRQ));`
poll of `ata_identify` (ata.c:113-115); returns the final status. -/
def ata_identify_status_loop {σ : Type} (P : Ports σ) :
    Nat → Nat → M σ → Option (Nat × M σ)
  | 0, _, _ => none
  | fuel + 1, bus, m =>
    let p := doInb P (bus + ATA_REG_STATUS) m
    if p.1 &&& ATA_STATUS_ERR = 0 ∧ p.1 &&& ATA_STATUS_DRQ = 0 then
      ata_identify_status_loop P fuel bus p.2
    else some (p.1, p.2)

/-- The `for(i = 0; i < 256; ++i) init_data[i] = inw(...)` data transfer,
shared shape with the per-sector transfer of `ata_read` (ata.c:119-120 and
220-224): read `count` words from the data register into `buff` starting at
word position `pos`. -/
def ata_read_words {σ : Type} (P : Ports σ) (bus : Nat) :
    Nat → List Nat → Nat → M σ → List Nat × Nat × M σ
  | 0, buff, pos, m => (buff, pos, m)
  | count + 1, buff, pos, m =>
    let p := doInw P (bus + ATA_REG_DATA) m
    ata_read_words P bus count (buff.set pos p.1) (pos + 1) p.2

/-- The `for(j = 0; j < 256; ++j) outw(...)` transfer of `ata_write`
(ata.c:260-264): write `count` words from `buff` starting at word position
`pos` to the data register; returns the advanced position. -/
def ata_write_words {σ : Type} (P : Ports σ) (bus : Nat) :
    Nat → List Nat → Nat → M σ → Nat × M σ
  | 0, _, pos, m => (pos, m)
  | count + 1, buff, pos, m =>
    let m := doOutw P (bus + ATA_REG_DATA) (buff.getD pos 0) m
    ata_write_words P bus count buff (pos + 1) m

/-- `ata_identify` (ata.c:95-122).  Returns `(ok, init_data)`; `ok = 0` means
identify failed.  The C `||` in the cylinder check short-circuits, so the
high register is only read when the low one is zero. -/
def ata_identify {σ : Type} (P : Ports σ) (fuel bus : Nat) (slave : Bool)
    (m : M σ) : Option (Nat × List Nat × M σ) :=
  let m := ata_select_drive P bus slave m
  let m := doOutb P (bus + ATA_REG_SECTOR_COUNT) 0x0 m
  let m := doOutb P (bus + ATA_REG_SECTOR_NUMBER) 0x0 m
  let m := doOutb P (bus + ATA_REG_CYLINDER_LOW) 0x0 m
  let m := doOutb P (bus + ATA_REG_CYLINDER_HIGH) 0x0 m
  let m := ata_command P bus ATA_CMD_IDENTIFY m
  let p := doInb P (bus + ATA_REG_STATUS) m
  if p.1 = 0 then some (0, List.replicate 256 0, p.2)
  else
    match ata_identify_busy_loop P fuel bus p.2 with
    | none => none
    | some m =>
      let cl := doInb P (bus + ATA_REG_CYLINDER_LOW) m
      if cl.1 ≠ 0 then some (0, List.replicate 256 0, cl.2)
      else
        let ch := doInb P (bus + ATA_REG_CYLINDER_HIGH) cl.2
        if ch.1 ≠ 0 then some (0, List.replicate 256 0, ch.2)
        else
          match ata_identify_status_loop P fuel bus ch.2 with
          | none => none
          | some (status, m) =>
            if status &&& ATA_STATUS_ERR ≠ 0 then some (0, List.replicate 256 0, m)
            else
              let q := ata_read_words P bus 256 (List.replicate 256 0) 0 m
              some (1, q.1, q.2.2)

/-- `ata_lba28_sectors` (ata.c:124-127): `*(uint32_t *)(data + 60)`, i.e. the
little-endian pair of 16-bit words 60 and 61. -/
def ata_lba28_sectors (data : List Nat) : Nat :=
  data.getD 60 0 + 65536 * data.getD 61 0

/-- `ata_supports_lba48` (ata.c:129-132). -/
def ata_supports_lba48 (data : List Nat) : Nat :=
  data.getD 83 0 &&& 0b10000000000

/-- The fixed-size object pool behind `cache_alloc`/`cache_free`
(`memory.h` collaborator, out of scope): only the number of free slots is
relevant.  Allocation yields a zero-initialized device (the cache is created
with the `bzero` constructor). -/
structure Pool where
  free : Nat
  deriving DecidableEq, Repr

/-- `cache_alloc`: `none` models allocation failure. -/
def cache_alloc (p : Pool) : Option ata_device × Pool :=
  match p.free with
  | 0 => (none, p)
  | f + 1 => (some ⟨0, 0, false, 0⟩, ⟨f⟩)

/-- `cache_free`: the object returns to the pool. -/
def cache_free (p : Pool) : Pool := ⟨p.free + 1⟩

/-- `ata_init_device` (ata.c:135-168).  The outer `Option` is fuel exhaustion
inside `ata_identify`; the inner `Option ata_device` is the returned pointer
(`none` = `NULL`). -/
def ata_init_device {σ : Type} (P : Ports σ) (fuel : Nat) (pool : Pool)
    (bus ctrl : Nat) (m : M σ) : Option (Option ata_device × Pool × M σ) :=
  match cache_alloc pool with
  | (none, pool) => some (none, pool, m)
  | (some dev, pool) =>
    let dev := {dev with bus := bus, ctrl := ctrl}
    let fb := ata_check_floating_bus P bus m
    if fb.1 then
      let m := logEv "ATA floating bus detected\n" fb.2
      some (none, cache_free pool, m)
    else
      match ata_identify P fuel bus false fb.2 with
      | none => none
      | some (ok, init_data, m) =>
        if ok = 0 then
          let m := logEv "ATA identify failed\n" m
          some (none, cache_free pool, m)
        else
          let sectors := ata_lba28_sectors init_data
          let m := if sectors ≠ 0 then logEv "ATA LBA28 sectors: %u\n" m else m
          let m := if ata_supports_lba48 init_data ≠ 0 then
              logEv "ATA LBA48 supported\n" m else m
          let m := logEv "ATA disk size: %u bytes\n" m
          let m := logEv "ATA initialized!\n" m
          some (some dev, pool, m)

/-- `ata_init` (ata.c:10-22).  `pool?` is the result of `cache_create`
(`none` = creation failed, the function returns with `devices` still `NULL`).
Returns the resulting process-wide device list (`devices`), the pool and the
machine state. -/
def ata_init {σ : Type} (P : Ports σ) (fuel : Nat) (pool? : Option Pool)
    (m : M σ) : Option (List ata_device × Option Pool × M σ) :=
  match pool? with
  | none => some ([], none, m)
  | some pool =>
    match ata_init_device P fuel pool ATA_PRIMARY_BUS ATA_PRIMARY_CTRL m with
    | none => none
    | some (dev?, pool, m) =>
      some ((match dev? with
             | none => []
             | some dev => [dev]), some pool, m)

/-- `ata_irq` (ata.c:30-38): `dev = devices; dev->wait_irq = 0;`.  The head of
the device list is dereferenced unconditionally; `none` models the
null-pointer dereference when the list is empty. -/
def ata_irq (devs : List ata_device) : Option (List ata_device × List Event) :=
  match devs with
  | [] => none
  | dev :: rest => some ({dev with wait_irq := 0} :: rest, [Event.evFlag 0])

/-- `ata_err_check` (ata.c:40-52): walk the device list and clear the armed
flag of any device whose status register reports an error.  The C `&&`
short-circuits: the status port is read only for armed devices. -/
def ata_err_check {σ : Type} (P : Ports σ) :
    List ata_device → M σ → List ata_device × M σ
  | [], m => ([], m)
  | dev :: rest, m =>
    if dev.wait_irq ≠ 0 then
      let p := ata_has_err P dev m
      if p.1 ≠ 0 then
        let m := flagEv 0 p.2
        let q := ata_err_check P rest m
        ({dev with wait_irq := 0} :: q.1, q.2)
      else
        let q := ata_err_check P rest p.2
        (dev :: q.1, q.2)
    else
      let q := ata_err_check P rest m
      (dev :: q.1, q.2)

/-- `ata_get_type` (ata.c:170-190). -/
def ata_get_type {σ : Type} (P : Ports σ) (dev? : Option ata_device)
    (slave : Bool) (m : M σ) : Nat × M σ :=
  match dev? with
  | none => (ATA_TYPE_UNKNOWN, m)
  | some dev =>
    let m := ata_reset P (some dev) m
    let m := ata_select_drive P dev.bus slave m
    let m := ata_wait P dev.ctrl m
    let cl := doInb P (dev.bus + ATA_REG_CYLINDER_LOW) m
    let ch := doInb P (dev.bus + ATA_REG_CYLINDER_HIGH) cl.2
    if cl.1 = 0 ∧ ch.1 = 0 then (ATA_TYPE_PATA, ch.2)
    else if cl.1 = 0x14 ∧ ch.1 = 0xeb then (ATA_TYPE_PATAPI, ch.2)
    else if cl.1 = 0x3c ∧ ch.1 = 0xc3 then (ATA_TYPE_SATA, ch.2)
    else if cl.1 = 0x69 ∧ ch.1 = 0x96 then (ATA_TYPE_SATAPI, ch.2)
    else (ATA_TYPE_UNKNOWN, ch.2)

/-- Result of `ata_read`/`ata_write`: the C return value, the device and
caller buffer after the call (`none` = the null pointer that was passed in),
the final controller state and the event trace. -/
structure RWOut (σ : Type) where
  ret : Int
  dev : Option ata_device
  buf : Option (List Nat)
  sim : σ
  tr : List Event

/-- The shared register-setup sequence of `ata_read` and `ata_write`
(ata.c:204-210 and 244-250, identical but for the command byte): drive-select
with the high 4 LBA bits, sector count (low byte), the three LBA bytes, then
the command.  The `(uint8_t)` casts of the C calls are the `% 256`. -/
def ata_rw_setup {σ : Type} (P : Ports σ) (dev : ata_device) (slave : Bool)
    (lba sectors cmd : Nat) (m : M σ) : M σ :=
  let m := doOutb P (dev.bus + ATA_REG_DRIVE)
    ((if slave then 0xe0 else 0xf0) ||| ((lba >>> 24) &&& 0xf)) m
  let m := doOutb P (dev.bus + ATA_REG_SECTOR_COUNT) (sectors % 256) m
  let m := doOutb P (dev.bus + ATA_REG_SECTOR_NUMBER) (lba % 256) m
  let m := doOutb P (dev.bus + ATA_REG_CYLINDER_LOW) ((lba >>> 8) % 256) m
  let m := doOutb P (dev.bus + ATA_REG_CYLINDER_HIGH) ((lba >>> 16) % 256) m
  ata_command P dev.bus cmd m

/-- The per-sector loop of `ata_read` (ata.c:211-227).  `remaining` counts the
iterations still to run (`remaining = sectors - i`, the C loop guard
`i < sectors`); `i` is the C loop counter, kept because the settle-delay
branch tests `i >= sectors`.  `Sum.inl` is the early `-1` error return
(releasing the lock), `Sum.inr` the fall-through after the loop. -/
def ata_read_loop {σ : Type} (P : Ports σ) (fuel sectors : Nat) :
    Nat → ata_device → List Nat → Nat → Nat → M σ →
    Option (Sum (RWOut σ) (List Nat × ata_device × M σ))
  | 0, dev, buff, _, _, m => some (Sum.inr (buff, dev, m))
  | remaining + 1, dev, buff, pos, i, m =>
    match ata_wait_ready P fuel dev m with
    | none => none
    | some (dev, m) =>
      let e := ata_has_err P dev m
      if e.1 ≠ 0 then
        some (Sum.inl ⟨-1, some {dev with spinlock := false}, some buff,
          e.2.st, e.2.tr ++ [Event.evLockRel]⟩)
      else
        let q := ata_read_words P dev.bus 256 buff pos e.2
        let m := if i ≥ sectors then ata_wait P dev.ctrl q.2.2 else q.2.2
        ata_read_loop P fuel sectors remaining dev q.1 q.2.1 (i + 1) m

/-- `ata_read` (ata.c:196-230). -/
def ata_read {σ : Type} (P : Ports σ) (fuel : Nat) (dev? : Option ata_device)
    (slave : Bool) (lba : Nat) (buff? : Option (List Nat)) (sectors : Nat)
    (st : σ) : Option (RWOut σ) :=
  match dev?, buff? with
  | some dev, some buff =>
    if sectors > 0xff then some ⟨-1, some dev, some buff, st, []⟩
    else
      let dev := {dev with spinlock := true}
      let m : M σ := ⟨st, [Event.evLockAcq]⟩
      let m := ata_rw_setup P dev slave lba sectors ATA_CMD_READ_SECTORS m
      match ata_read_loop P fuel sectors sectors dev buff 0 0 m with
      | none => none
      | some (Sum.inl out) => some out
      | some (Sum.inr (buff, dev, m)) =>
        some ⟨0, some {dev with spinlock := false}, some buff,
          m.st, m.tr ++ [Event.evLockRel]⟩
  | _, _ => some ⟨-1, dev?, buff?, st, []⟩

/-- The per-sector loop of `ata_write` (ata.c:251-265), structured like
`ata_read_loop` (no settle-delay branch; the buffer is only read). -/
def ata_write_loop {σ : Type} (P : Ports σ) (fuel : Nat) :
    Nat → ata_device → List Nat → Nat → M σ →
    Option (Sum (RWOut σ) (ata_device × M σ))
  | 0, dev, _, _, m => some (Sum.inr (dev, m))
  | remaining + 1, dev, buff, pos, m =>
    match ata_wait_ready P fuel dev m with
    | none => none
    | some (dev, m) =>
      let e := ata_has_err P dev m
      if e.1 ≠ 0 then
        some (Sum.inl ⟨-1, some {dev with spinlock := false}, some buff,
          e.2.st, e.2.tr ++ [Event.evLockRel]⟩)
      else
        let q := ata_write_words P dev.bus 256 buff pos e.2
        ata_write_loop P fuel remaining dev buff q.1 q.2

/-- `ata_write` (ata.c:236-269): after the loop, the cache-flush command is
issued before the guard is released. -/
def ata_write {σ : Type} (P : Ports σ) (fuel : Nat) (dev? : Option ata_device)
    (slave : Bool) (lba : Nat) (buff? : Option (List Nat)) (sectors : Nat)
    (st : σ) : Option (RWOut σ) :=
  match dev?, buff? with
  | some dev, some buff =>
    if sectors > 0xff then some ⟨-1, some dev, some buff, st, []⟩
    else
      let dev := {dev with spinlock := true}
      let m : M σ := ⟨st, [Event.evLockAcq]⟩
      let m := ata_rw_setup P dev slave lba sectors ATA_CMD_WRITE_SECTORS m
      match ata_write_loop P fuel sectors dev buff 0 m with
      | none => none
      | some (Sum.inl out) => some out
      | some (Sum.inr (dev, m)) =>
        let m := ata_command P dev.bus ATA_CMD_CACHE_FLUSH m
        some ⟨0, some {dev with spinlock := false}, some buff,
          m.st, m.tr ++ [Event.evLockRel]⟩
  | _, _ => some ⟨-1, dev?, buff?, st, []⟩

/-! Simulated register/controller doubles.  These play the role of the
"simulated register/controller double" of the specification's testable
properties: a disk behind an ATA command-block register file. -/

/-- State of the simulated controller for read/write transfers: the disk as a
word-addressed store, the sector index at which the status register raises
the error bit (`none` = never), the latched task-file registers, and the
current transfer position (`xferLBA` latched when a read/write command is
issued, `xferIdx` the word offset within the transfer). -/
structure SimCtrl where
  bus : Nat
  disk : Nat → Nat
  errSector : Option Nat
  regDrive : Nat
  regSectorCount : Nat
  regSectorNumber : Nat
  regCylLow : Nat
  regCylHigh : Nat
  xferLBA : Nat
  xferIdx : Nat

/-- Status byte of the double: always ready (`RDY`), with `ERR` raised
exactly while the transfer stands at the designated error sector. -/
def simStatus (st : SimCtrl) : Nat :=
  if st.errSector = some (st.xferIdx / 256) then 0x41 else 0x40

/-- Byte read: only the status register is decoded; other ports read 0. -/
def simInb (st : SimCtrl) (port : Nat) : Nat × SimCtrl :=
  if port = st.bus + 7 then (simStatus st, st) else (0, st)

/-- Byte write: latch task-file registers; a read/write-sectors command
latches the 28-bit LBA from the registers and resets the word position. -/
def simOutb (st : SimCtrl) (port v : Nat) : SimCtrl :=
  if port = st.bus + 2 then {st with regSectorCount := v}
  else if port = st.bus + 3 then {st with regSectorNumber := v}
  else if port = st.bus + 4 then {st with regCylLow := v}
  else if port = st.bus + 5 then {st with regCylHigh := v}
  else if port = st.bus + 6 then {st with regDrive := v}
  else if port = st.bus + 7 then
    if v = 0x20 ∨ v = 0x30 then
      {st with
        xferLBA := st.regSectorNumber + 256 * st.regCylLow +
          65536 * st.regCylHigh + 16777216 * (st.regDrive &&& 0xf),
        xferIdx := 0}
    else st
  else st

/-- Word read from the data register: the disk word at the transfer position
(truncated to 16 bits), advancing the position. -/
def simInw (st : SimCtrl) (port : Nat) : Nat × SimCtrl :=
  if port = st.bus then
    (st.disk (256 * st.xferLBA + st.xferIdx) % 65536,
     {st with xferIdx := st.xferIdx + 1})
  else (0, st)

/-- Word write to the data register: store the (16-bit truncated) word at the
transfer position, advancing it. -/
def simOutw (st : SimCtrl) (port v : Nat) : SimCtrl :=
  if port = st.bus then
    {st with
      disk := fun p => if p = 256 * st.xferLBA + st.xferIdx then v % 65536
        else st.disk p,
      xferIdx := st.xferIdx + 1}
  else st

/-- The read/write simulation double as a port interface. -/
def simPorts : Ports SimCtrl := ⟨simInb, simOutb, simInw, simOutw⟩

/-- The effective 28-bit transfer address the double latches from the values
`ata_read`/`ata_write` put into the task-file registers for an `lba` and a
slave flag. -/
def effLBA (slave : Bool) (lba : Nat) : Nat :=
  lba % 256 + 256 * ((lba >>> 8) % 256) + 65536 * ((lba >>> 16) % 256) +
    16777216 * (((if slave then 0xe0 else 0xf0) ||| ((lba >>> 24) &&& 0xf)) &&& 0xf)

/-- Double for the `ata_get_type` probe: the cylinder registers read back the
configured signature pair; writes are ignored. -/
structure ProbeCtrl where
  bus : Nat
  cl : Nat
  ch : Nat
  deriving DecidableEq, Repr

/-- Byte read of the probe double. -/
def probeInb (st : ProbeCtrl) (port : Nat) : Nat × ProbeCtrl :=
  if port = st.bus + 4 then (st.cl % 256, st)
  else if port = st.bus + 5 then (st.ch % 256, st)
  else (0, st)

/-- The probe double as a port interface. -/
def probePorts : Ports ProbeCtrl :=
  ⟨probeInb, fun st _ _ => st, fun st _ => (0, st), fun st _ _ => st⟩

/-- Stateless double whose every read returns the constant `c`: `c = 0xff`
simulates a floating bus, `c = 0` a bus where the identify status reads 0. -/
def constPorts (c : Nat) : Ports Unit :=
  ⟨fun s _ => (c, s), fun s _ _ => s, fun s _ => (c, s), fun s _ _ => s⟩

/-- Data-register transfers (16-bit reads or writes) in a trace. -/
def isDataEv : Event → Bool
  | Event.evInw _ _ => true
  | Event.evOutw _ _ => true
  | _ => false

/-- Number of data-register transfers in a trace. -/
def dataCount (tr : List Event) : Nat := tr.countP isDataEv

/-- Writes to a device's `wait_irq` flag. -/
def isFlagEv : Event → Bool
  | Event.evFlag _ => true
  | _ => false

/-- Concrete device on the primary controller, used to instantiate theorems. -/
def devW : ata_device := ⟨0x1f0, 0x3f6, false, 0⟩

/-- Concrete error-free simulated controller state behind `devW`. -/
def stW : SimCtrl := ⟨0x1f0, fun _ => 0, none, 0, 0, 0, 0, 0, 0, 0⟩

/-- Concrete simulated controller raising the error bit at sector 0. -/
def stWerr : SimCtrl := ⟨0x1f0, fun _ => 0, some 0, 0, 0, 0, 0, 0, 0, 0⟩

/-- The events the per-sector transfer loops of `ata_read`/`ata_write` may
append for a device: status-register byte reads, data-register word
transfers, and `wait_irq` flag writes — in particular no byte read of any
port other than the status register. -/
def rwLoopEv (dev : ata_device) (e : Event) : Prop :=
  (∃ v, e = Event.evInb (dev.bus + ATA_REG_STATUS) v) ∨
  (∃ v, e = Event.evInw (dev.bus + ATA_REG_DATA) v) ∨
  (∃ v, e = Event.evOutw (dev.bus + ATA_REG_DATA) v) ∨
  (∃ v, e = Event.evFlag v)

/-- The register-setup events `ata_read`/`ata_write` issue, in program order:
drive-select (slave-select pattern or'd with LBA bits 24-27), sector count
(low byte), sector number (LBA bits 0-7), cylinder low (bits 8-15), cylinder
high (bits 16-23), then the command byte. -/
def rwSetupTr (bus : Nat) (slave : Bool) (lba sectors cmd : Nat) : List Event :=
  [Event.evOutb (bus + ATA_REG_DRIVE)
     ((if slave then 0xe0 else 0xf0) ||| ((lba >>> 24) &&& 0xf)),
   Event.evOutb (bus + ATA_REG_SECTOR_COUNT) (sectors % 256),
   Event.evOutb (bus + ATA_REG_SECTOR_NUMBER) (lba % 256),
   Event.evOutb (bus + ATA_REG_CYLINDER_LOW) ((lba >>> 8) % 256),
   Event.evOutb (bus + ATA_REG_CYLINDER_HIGH) ((lba >>> 16) % 256),
   Event.evOutb (bus + ATA_REG_COMMAND) cmd]

/-! Theorems. -/

theorem probeInb_snd (st : ProbeCtrl) (p : Nat) : (probeInb st p).2 = st := by
  unfold probeInb
  split
  · rfl
  · split <;> rfl

theorem doInb_probe_st (port : Nat) (m : M ProbeCtrl) :
    ((doInb probePorts port m).2).st = m.st := by
  simp [doInb, probePorts, probeInb_snd]

theorem doInb_probe_fst (port : Nat) (m : M ProbeCtrl) :
    (doInb probePorts port m).1 = (probeInb m.st port).1 := rfl

theorem doOutb_probe_st (port v : Nat) (m : M ProbeCtrl) :
    (doOutb probePorts port v m).st = m.st := rfl

theorem ata_wait_probe_st (port : Nat) (m : M ProbeCtrl) :
    (ata_wait probePorts port m).st = m.st := by
  simp [ata_wait, doInb_probe_st]

theorem ata_reset_probe_st (dev? : Option ata_device) (m : M ProbeCtrl) :
    (ata_reset probePorts dev? m).st = m.st := by
  cases dev? with
  | none => rfl
  | some dev => simp [ata_reset, doOutb_probe_st, doInb_probe_st]

/-- C3: for a null device, a null buffer, or a sector count above 255 —
each violation on its own — `ata_read` and `ata_write` return `-1` at once:
the controller state is untouched (no port I/O), the trace is empty (in
particular no guard acquisition), and the device is unchanged. -/
theorem claim_C3_invalid_args {σ : Type} (P : Ports σ) (fuel : Nat)
    (dev? : Option ata_device) (slave : Bool) (lba : Nat)
    (buff? : Option (List Nat)) (sectors : Nat) (st : σ)
    (h : dev? = none ∨ buff? = none ∨ 255 < sectors) :
    ata_read P fuel dev? slave lba buff? sectors st =
      some ⟨-1, dev?, buff?, st, []⟩ ∧
    ata_write P fuel dev? slave lba buff? sectors st =
      some ⟨-1, dev?, buff?, st, []⟩ := by
  rcases h with h | h | h
  · subst h
    cases buff? <;> exact ⟨rfl, rfl⟩
  · subst h
    cases dev? <;> exact ⟨rfl, rfl⟩
  · cases dev? with
    | none => exact ⟨rfl, rfl⟩
    | some dev =>
      cases buff? with
      | none => exact ⟨rfl, rfl⟩
      | some buff =>
        constructor
        · simp only [ata_read]
          rw [if_pos (by omega)]
        · simp only [ata_write]
          rw [if_pos (by omega)]

theorem claim_C3_witness :
    ata_read (constPorts 0) 0 none false 0 (some []) 0 () =
      some ⟨-1, none, some [], (), []⟩ ∧
    ata_write (constPorts 0) 0 none false 0 (some []) 0 () =
      some ⟨-1, none, some [], (), []⟩ :=
  claim_C3_invalid_args (constPorts 0) 0 none false 0 (some []) 0 () (Or.inl rfl)

/-- C9: `ata_irq` dereferences the head of the device list unconditionally:
on an empty list the interrupt hook hits a null pointer (modelled as `none`),
and with at least one registered device it clears the head device's
`wait_irq` flag. -/
theorem claim_C9_irq_null_deref :
    ata_irq [] = none ∧
    ∀ (dev : ata_device) (rest : List ata_device),
      ata_irq (dev :: rest) =
        some ({dev with wait_irq := 0} :: rest, [Event.evFlag 0]) :=
  ⟨rfl, fun _ _ => rfl⟩

/-- C10: with a non-null device and buffer and `sectors = 0`, both calls
return 0 (success) after issuing the full register-setup sequence with a
sector-count byte of 0; the transfer loop runs zero iterations (the trace
holds no data-register event and the caller's buffer comes back unchanged),
and `ata_write` still issues the cache-flush command before the guard
release.  Stated for an arbitrary port double. -/
theorem claim_C10_zero_sectors {σ : Type} (P : Ports σ) (fuel : Nat)
    (dev : ata_device) (slave : Bool) (lba : Nat) (b : List Nat) (st : σ) :
    ata_read P fuel (some dev) slave lba (some b) 0 st =
      some ⟨0, some {dev with spinlock := false}, some b,
        P.outb (P.outb (P.outb (P.outb (P.outb (P.outb st
          (dev.bus + ATA_REG_DRIVE)
            ((if slave then 0xe0 else 0xf0) ||| ((lba >>> 24) &&& 0xf)))
          (dev.bus + ATA_REG_SECTOR_COUNT) (0 % 256))
          (dev.bus + ATA_REG_SECTOR_NUMBER) (lba % 256))
          (dev.bus + ATA_REG_CYLINDER_LOW) ((lba >>> 8) % 256))
          (dev.bus + ATA_REG_CYLINDER_HIGH) ((lba >>> 16) % 256))
          (dev.bus + ATA_REG_COMMAND) ATA_CMD_READ_SECTORS,
        [Event.evLockAcq,
         Event.evOutb (dev.bus + ATA_REG_DRIVE)
           ((if slave then 0xe0 else 0xf0) ||| ((lba >>> 24) &&& 0xf)),
         Event.evOutb (dev.bus + ATA_REG_SECTOR_COUNT) (0 % 256),
         Event.evOutb (dev.bus + ATA_REG_SECTOR_NUMBER) (lba % 256),
         Event.evOutb (dev.bus + ATA_REG_CYLINDER_LOW) ((lba >>> 8) % 256),
         Event.evOutb (dev.bus + ATA_REG_CYLINDER_HIGH) ((lba >>> 16) % 256),
         Event.evOutb (dev.bus + ATA_REG_COMMAND) ATA_CMD_READ_SECTORS,
         Event.evLockRel]⟩ ∧
    ata_write P fuel (some dev) slave lba (some b) 0 st =
      some ⟨0, some {dev with spinlock := false}, some b,
        P.outb (P.outb (P.outb (P.outb (P.outb (P.outb (P.outb st
          (dev.bus + ATA_REG_DRIVE)
            ((if slave then 0xe0 else 0xf0) ||| ((lba >>> 24) &&& 0xf)))
          (dev.bus + ATA_REG_SECTOR_COUNT) (0 % 256))
          (dev.bus + ATA_REG_SECTOR_NUMBER) (lba % 256))
          (dev.bus + ATA_REG_CYLINDER_LOW) ((lba >>> 8) % 256))
          (dev.bus + ATA_REG_CYLINDER_HIGH) ((lba >>> 16) % 256))
          (dev.bus + ATA_REG_COMMAND) ATA_CMD_WRITE_SECTORS)
          (dev.bus + ATA_REG_COMMAND) ATA_CMD_CACHE_FLUSH,
        [Event.evLockAcq,
         Event.evOutb (dev.bus + ATA_REG_DRIVE)
           ((if slave then 0xe0 else 0xf0) ||| ((lba >>> 24) &&& 0xf)),
         Event.evOutb (dev.bus + ATA_REG_SECTOR_COUNT) (0 % 256),
         Event.evOutb (dev.bus + ATA_REG_SECTOR_NUMBER) (lba % 256),
         Event.evOutb (dev.bus + ATA_REG_CYLINDER_LOW) ((lba >>> 8) % 256),
         Event.evOutb (dev.bus + ATA_REG_CYLINDER_HIGH) ((lba >>> 16) % 256),
         Event.evOutb (dev.bus + ATA_REG_COMMAND) ATA_CMD_WRITE_SECTORS,
         Event.evOutb (dev.bus + ATA_REG_COMMAND) ATA_CMD_CACHE_FLUSH,
         Event.evLockRel]⟩ := by
  obtain ⟨db, dc, ds, dw⟩ := dev
  exact ⟨rfl, rfl⟩

/-- C2: against the probe double, `ata_get_type` classifies the cylinder
register pair read after reset, drive select and the settle delay as PATA for
0x00/0x00, PATAPI for 0x14/0xEB, SATA for 0x3C/0xC3, SATAPI for 0x69/0x96 and
Unknown for every other pair; a null device pointer yields Unknown with the
machine state untouched (no port access). -/
theorem claim_C2_get_type (dev : ata_device) (st : ProbeCtrl) (slave : Bool)
    (tr : List Event) (hbus : dev.bus = st.bus) (hcl : st.cl < 256)
    (hch : st.ch < 256) :
    ((st.cl = 0 ∧ st.ch = 0) →
      (ata_get_type probePorts (some dev) slave ⟨st, tr⟩).1 = ATA_TYPE_PATA) ∧
    ((st.cl = 0x14 ∧ st.ch = 0xeb) →
      (ata_get_type probePorts (some dev) slave ⟨st, tr⟩).1 = ATA_TYPE_PATAPI) ∧
    ((st.cl = 0x3c ∧ st.ch = 0xc3) →
      (ata_get_type probePorts (some dev) slave ⟨st, tr⟩).1 = ATA_TYPE_SATA) ∧
    ((st.cl = 0x69 ∧ st.ch = 0x96) →
      (ata_get_type probePorts (some dev) slave ⟨st, tr⟩).1 = ATA_TYPE_SATAPI) ∧
    (¬(st.cl = 0 ∧ st.ch = 0) → ¬(st.cl = 0x14 ∧ st.ch = 0xeb) →
     ¬(st.cl = 0x3c ∧ st.ch = 0xc3) → ¬(st.cl = 0x69 ∧ st.ch = 0x96) →
      (ata_get_type probePorts (some dev) slave ⟨st, tr⟩).1 = ATA_TYPE_UNKNOWN) ∧
    (∀ {σ : Type} (P : Ports σ) (m : M σ),
      ata_get_type P none slave m = (ATA_TYPE_UNKNOWN, m)) := by
  obtain ⟨sbus, scl, sch⟩ := st
  obtain ⟨db, dc, ds, dw⟩ := dev
  simp only at hbus hcl hch
  subst hbus
  have hget : ∀ m : M ProbeCtrl, m.st = ⟨db, scl, sch⟩ →
      (ata_get_type probePorts (some ⟨db, dc, ds, dw⟩) slave m).1 =
        (if scl = 0 ∧ sch = 0 then ATA_TYPE_PATA
         else if scl = 0x14 ∧ sch = 0xeb then ATA_TYPE_PATAPI
         else if scl = 0x3c ∧ sch = 0xc3 then ATA_TYPE_SATA
         else if scl = 0x69 ∧ sch = 0x96 then ATA_TYPE_SATAPI
         else ATA_TYPE_UNKNOWN) := by
    intro m hm
    have h4 : ∀ m2 : M ProbeCtrl, m2.st = ⟨db, scl, sch⟩ →
        (doInb probePorts (db + ATA_REG_CYLINDER_LOW) m2).1 = scl % 256 := by
      intro m2 hm2
      simp [doInb_probe_fst, hm2, probeInb, ATA_REG_CYLINDER_LOW]
    have h5 : ∀ m2 : M ProbeCtrl, m2.st = ⟨db, scl, sch⟩ →
        (doInb probePorts (db + ATA_REG_CYLINDER_HIGH) m2).1 = sch % 256 := by
      intro m2 hm2
      simp [doInb_probe_fst, hm2, probeInb, ATA_REG_CYLINDER_HIGH,
        ATA_REG_CYLINDER_LOW]
    simp only [ata_get_type]
    have hst1 := ata_reset_probe_st (some ⟨db, dc, ds, dw⟩) m
    rw [hm] at hst1
    have hst2 : (ata_select_drive probePorts db slave
        (ata_reset probePorts (some ⟨db, dc, ds, dw⟩) m)).st =
        ProbeCtrl.mk db scl sch := by
      rw [ata_select_drive, doOutb_probe_st, hst1]
    have hst3 := ata_wait_probe_st dc (ata_select_drive probePorts db slave
      (ata_reset probePorts (some ⟨db, dc, ds, dw⟩) m))
    rw [hst2] at hst3
    set m3 := ata_wait probePorts dc (ata_select_drive probePorts db slave
      (ata_reset probePorts (some ⟨db, dc, ds, dw⟩) m)) with hm3
    have hcl1 := h4 m3 hst3
    have hst4 : ((doInb probePorts (db + ATA_REG_CYLINDER_LOW) m3).2).st =
        ⟨db, scl, sch⟩ := by rw [doInb_probe_st, hst3]
    have hch1 := h5 _ hst4
    rw [hcl1, hch1, Nat.mod_eq_of_lt hcl, Nat.mod_eq_of_lt hch]
    simp only [apply_ite Prod.fst]
  refine ⟨?_, ?_, ?_, ?_, ?_, ?_⟩
  · rintro ⟨h1, h2⟩
    rw [hget ⟨⟨db, scl, sch⟩, tr⟩ rfl]
    simp only at h1 h2
    simp [h1, h2]
  · rintro ⟨h1, h2⟩
    rw [hget ⟨⟨db, scl, sch⟩, tr⟩ rfl]
    subst h1; subst h2
    norm_num
  · rintro ⟨h1, h2⟩
    rw [hget ⟨⟨db, scl, sch⟩, tr⟩ rfl]
    subst h1; subst h2
    norm_num
  · rintro ⟨h1, h2⟩
    rw [hget ⟨⟨db, scl, sch⟩, tr⟩ rfl]
    subst h1; subst h2
    norm_num
  · intro h1 h2 h3 h4
    rw [hget ⟨⟨db, scl, sch⟩, tr⟩ rfl]
    rw [if_neg h1, if_neg h2, if_neg h3, if_neg h4]
  · intro σ P m
    rfl

theorem claim_C2_witness :
    (0x14 = 0x14 ∧ 0xeb = 0xeb) ∧
    (ata_get_type probePorts (some devW) false
      ⟨⟨0x1f0, 0x14, 0xeb⟩, []⟩).1 = ATA_TYPE_PATAPI :=
  ⟨⟨rfl, rfl⟩,
    (claim_C2_get_type devW ⟨0x1f0, 0x14, 0xeb⟩ false [] rfl (by decide)
      (by decide)).2.1 ⟨rfl, rfl⟩⟩

/-! Generic trace lemmas: they hold for an arbitrary port double and
characterize which events the driver appends. -/

theorem ata_read_words_pos {σ : Type} (P : Ports σ) (bus : Nat) :
    ∀ (c : Nat) (buff : List Nat) (pos : Nat) (m : M σ),
      (ata_read_words P bus c buff pos m).2.1 = pos + c := by
  intro c
  induction c with
  | zero => intro buff pos m; rfl
  | succ n ih =>
    intro buff pos m
    show (ata_read_words P bus n _ (pos + 1) _).2.1 = pos + (n + 1)
    rw [ih]
    omega

theorem ata_read_words_tr {σ : Type} (P : Ports σ) (bus : Nat) :
    ∀ (c : Nat) (buff : List Nat) (pos : Nat) (m : M σ),
      ∃ Δ, (ata_read_words P bus c buff pos m).2.2.tr = m.tr ++ Δ ∧
        ∀ e ∈ Δ, ∃ v, e = Event.evInw (bus + ATA_REG_DATA) v := by
  intro c
  induction c with
  | zero =>
    intro buff pos m
    exact ⟨[], by simp [ata_read_words], by simp⟩
  | succ n ih =>
    intro buff pos m
    obtain ⟨Δ, h1, h2⟩ := ih (buff.set pos (doInw P (bus + ATA_REG_DATA) m).1)
      (pos + 1) (doInw P (bus + ATA_REG_DATA) m).2
    refine ⟨Event.evInw (bus + ATA_REG_DATA) (doInw P (bus + ATA_REG_DATA) m).1 :: Δ,
      ?_, ?_⟩
    · show (ata_read_words P bus n _ _ _).2.2.tr = _
      rw [h1]
      simp [doInw]
    · intro e he
      rcases List.mem_cons.mp he with h | h
      · exact ⟨_, h⟩
      · exact h2 e h

theorem ata_write_words_tr {σ : Type} (P : Ports σ) (bus : Nat) :
    ∀ (c : Nat) (buff : List Nat) (pos : Nat) (m : M σ),
      (ata_write_words P bus c buff pos m).1 = pos + c ∧
      ∃ Δ, (ata_write_words P bus c buff pos m).2.tr = m.tr ++ Δ ∧
        ∀ e ∈ Δ, ∃ v, e = Event.evOutw (bus + ATA_REG_DATA) v := by
  intro c
  induction c with
  | zero =>
    intro buff pos m
    exact ⟨rfl, [], by simp [ata_write_words], by simp⟩
  | succ n ih =>
    intro buff pos m
    obtain ⟨hpos, Δ, h1, h2⟩ := ih buff (pos + 1)
      (doOutw P (bus + ATA_REG_DATA) (buff.getD pos 0) m)
    refine ⟨?_, Event.evOutw (bus + ATA_REG_DATA) (buff.getD pos 0) :: Δ, ?_, ?_⟩
    · show (ata_write_words P bus n _ _ _).1 = pos + (n + 1)
      rw [hpos]; omega
    · show (ata_write_words P bus n _ _ _).2.tr = _
      rw [h1]
      simp [doOutw]
    · intro e he
      rcases List.mem_cons.mp he with h | h
      · exact ⟨_, h⟩
      · exact h2 e h

theorem ata_wait_ready_loop_tr {σ : Type} (P : Ports σ) :
    ∀ (fuel : Nat) (dev : ata_device) (m : M σ)
      (res : ata_device × M σ),
      ata_wait_ready_loop P fuel dev m = some res →
      res.1 = dev ∧ ∃ Δ, res.2.tr = m.tr ++ Δ ∧
        ∀ e ∈ Δ, ∃ v, e = Event.evInb (dev.bus + ATA_REG_STATUS) v := by
  intro fuel
  induction fuel with
  | zero => intro dev m res h; exact absurd h (by simp [ata_wait_ready_loop])
  | succ n ih =>
    intro dev m res h
    rw [ata_wait_ready_loop] at h
    by_cases hw : dev.wait_irq = 0
    · rw [if_pos hw] at h
      obtain rfl : (dev, m) = res := Option.some.inj h
      exact ⟨rfl, [], by simp, by simp⟩
    · rw [if_neg hw] at h
      by_cases hr : (ata_is_ready P dev.bus m).1 = 0
      · rw [if_pos hr] at h
        obtain ⟨hd, Δ, h1, h2⟩ := ih dev (ata_is_ready P dev.bus m).2 res h
        refine ⟨hd, Event.evInb (dev.bus + ATA_REG_STATUS)
          (P.inb m.st (dev.bus + ATA_REG_STATUS)).1 :: Δ, ?_, ?_⟩
        · rw [h1]
          simp [ata_is_ready, doInb]
        · intro e he
          rcases List.mem_cons.mp he with h | h
          · exact ⟨_, h⟩
          · exact h2 e h
      · rw [if_neg hr] at h
        obtain rfl : (dev, (ata_is_ready P dev.bus m).2) = res := Option.some.inj h
        refine ⟨rfl, [Event.evInb (dev.bus + ATA_REG_STATUS)
          (P.inb m.st (dev.bus + ATA_REG_STATUS)).1], ?_, ?_⟩
        · simp [ata_is_ready, doInb]
        · simp

theorem ata_wait_ready_tr {σ : Type} (P : Ports σ) (fuel : Nat)
    (dev : ata_device) (m : M σ) (dev2 : ata_device) (m2 : M σ)
    (h : ata_wait_ready P fuel dev m = some (dev2, m2)) :
    dev2 = {dev with wait_irq := 0} ∧
    ∃ Δ, m2.tr = m.tr ++ Event.evFlag 1 :: Δ ++ [Event.evFlag 0] ∧
      ∀ e ∈ Δ, ∃ v, e = Event.evInb (dev.bus + ATA_REG_STATUS) v := by
  rw [ata_wait_ready] at h
  rcases hl : ata_wait_ready_loop P fuel {dev with wait_irq := 1} (flagEv 1 m) with _ | ⟨d3, m3⟩
  · rw [hl] at h; exact absurd h (by simp)
  · rw [hl] at h
    obtain ⟨hd, Δ, h1, h2⟩ := ata_wait_ready_loop_tr P fuel _ _ _ hl
    simp only at h hd h1
    have hp := Option.some.inj h
    injection hp with hA hB
    subst hA
    subst hB
    constructor
    · rw [hd]
    · refine ⟨Δ, ?_, ?_⟩
      · show m3.tr ++ [Event.evFlag 0] = _
        rw [h1]
        simp [flagEv]
      · intro e he
        exact h2 e he

theorem rwLoopEv_of_eq (dev dev2 : ata_device) (hb : dev2.bus = dev.bus)
    (e : Event) (h : rwLoopEv dev2 e) : rwLoopEv dev e := by
  rw [rwLoopEv, hb] at h
  exact h

set_option maxRecDepth 8192 in
theorem ata_read_loop_tr {σ : Type} (P : Ports σ) (fuel sectors : Nat) :
    ∀ (r : Nat) (dev : ata_device) (buff : List Nat) (pos i : Nat) (m : M σ)
      (res : Sum (RWOut σ) (List Nat × ata_device × M σ)),
      i + r = sectors →
      ata_read_loop P fuel sectors r dev buff pos i m = some res →
      (∀ out, res = Sum.inl out →
        out.ret = -1 ∧
        (∃ dv, out.dev = some dv ∧ dv.bus = dev.bus ∧ dv.ctrl = dev.ctrl ∧
          dv.spinlock = false) ∧
        ∃ Δ, out.tr = m.tr ++ Δ ++ [Event.evLockRel] ∧ ∀ e ∈ Δ, rwLoopEv dev e) ∧
      (∀ b2 d2 m2, res = Sum.inr (b2, d2, m2) →
        d2.bus = dev.bus ∧ d2.ctrl = dev.ctrl ∧ d2.spinlock = dev.spinlock ∧
        ∃ Δ, m2.tr = m.tr ++ Δ ∧ ∀ e ∈ Δ, rwLoopEv dev e) := by
  intro r
  induction r with
  | zero =>
    intro dev buff pos i m res hi h
    rw [ata_read_loop] at h
    have hres := Option.some.inj h
    constructor
    · intro out hout
      rw [hout] at hres
      exact absurd hres (by simp)
    · intro b2 d2 m2 hout
      rw [hout] at hres
      injection hres with hres
      injection hres with hb hres
      injection hres with hd hm
      subst hb; subst hd; subst hm
      exact ⟨rfl, rfl, rfl, [], by simp, by simp⟩
  | succ n ih =>
    intro dev buff pos i m res hi h
    rw [ata_read_loop] at h
    rcases hw : ata_wait_ready P fuel dev m with _ | ⟨dev2, m1⟩
    · rw [hw] at h; exact absurd h (by simp)
    · rw [hw] at h
      dsimp only at h
      obtain ⟨hdev2, Δw, hw1, hw2⟩ := ata_wait_ready_tr P fuel dev m dev2 m1 hw
      have hbus2 : dev2.bus = dev.bus := by rw [hdev2]
      have hctrl2 : dev2.ctrl = dev.ctrl := by rw [hdev2]
      have hsl2 : dev2.spinlock = dev.spinlock := by rw [hdev2]
      have herrtr : (ata_has_err P dev2 m1).2.tr =
          m1.tr ++ [Event.evInb (dev2.bus + ATA_REG_STATUS)
            (P.inb m1.st (dev2.bus + ATA_REG_STATUS)).1] := by
        simp [ata_has_err, doInb]
      have hprofix : ∀ e ∈ Event.evFlag 1 :: Δw ++
          [Event.evFlag 0, Event.evInb (dev2.bus + ATA_REG_STATUS)
            (P.inb m1.st (dev2.bus + ATA_REG_STATUS)).1], rwLoopEv dev e := by
        intro e hmem
        rcases List.mem_cons.mp hmem with rfl | hmem
        · exact Or.inr (Or.inr (Or.inr ⟨1, rfl⟩))
        rcases List.mem_append.mp hmem with h1 | hmem
        · obtain ⟨v, hv⟩ := hw2 e h1
          exact Or.inl ⟨v, hv⟩
        rcases List.mem_cons.mp hmem with rfl | hmem
        · exact Or.inr (Or.inr (Or.inr ⟨0, rfl⟩))
        rcases List.mem_cons.mp hmem with rfl | hmem
        · rw [hbus2]
          exact Or.inl ⟨_, rfl⟩
        · exact absurd hmem (List.not_mem_nil e)
      by_cases he : (ata_has_err P dev2 m1).1 ≠ 0
      · rw [if_pos he] at h
        have hres := Option.some.inj h
        constructor
        · intro out hout
          rw [hout] at hres
          injection hres with hres
          refine ⟨?_, ?_, ?_⟩
          · rw [← hres]
          · refine ⟨{dev2 with spinlock := false}, ?_, ?_, ?_, rfl⟩
            · rw [← hres]
            · simp [hbus2]
            · simp [hctrl2]
          · refine ⟨Event.evFlag 1 :: Δw ++
              [Event.evFlag 0, Event.evInb (dev2.bus + ATA_REG_STATUS)
                (P.inb m1.st (dev2.bus + ATA_REG_STATUS)).1], ?_, hprofix⟩
            rw [← hres]
            show (ata_has_err P dev2 m1).2.tr ++ [Event.evLockRel] = _
            rw [herrtr, hw1]
            simp
        · intro b2 d2 m2 hout
          rw [hout] at hres
          exact absurd hres (by simp)
      · rw [if_neg he] at h
        rw [if_neg (by omega : ¬ i ≥ sectors)] at h
        obtain ⟨Δd, hd1, hd2⟩ := ata_read_words_tr P dev2.bus 256 buff pos
          (ata_has_err P dev2 m1).2
        have hih := ih dev2 (ata_read_words P dev2.bus 256 buff pos
            (ata_has_err P dev2 m1).2).1
          (ata_read_words P dev2.bus 256 buff pos (ata_has_err P dev2 m1).2).2.1
          (i + 1)
          (ata_read_words P dev2.bus 256 buff pos (ata_has_err P dev2 m1).2).2.2
          res (by omega) h
        have htr3 : (ata_read_words P dev2.bus 256 buff pos
            (ata_has_err P dev2 m1).2).2.2.tr =
            m.tr ++ (Event.evFlag 1 :: Δw ++
              [Event.evFlag 0, Event.evInb (dev2.bus + ATA_REG_STATUS)
                (P.inb m1.st (dev2.bus + ATA_REG_STATUS)).1] ++ Δd) := by
          rw [hd1, herrtr, hw1]
          simp
        have hprod : ∀ (Δ2 : List Event), (∀ e ∈ Δ2, rwLoopEv dev2 e) →
            ∀ e ∈ Event.evFlag 1 :: Δw ++
            [Event.evFlag 0, Event.evInb (dev2.bus + ATA_REG_STATUS)
              (P.inb m1.st (dev2.bus + ATA_REG_STATUS)).1] ++ Δd ++ Δ2,
            rwLoopEv dev e := by
          intro Δ2 h2all e hmem
          rcases List.mem_cons.mp hmem with rfl | hmem
          · exact Or.inr (Or.inr (Or.inr ⟨1, rfl⟩))
          rcases List.mem_append.mp hmem with hmem | h1
          case inr => exact rwLoopEv_of_eq dev dev2 hbus2 e (h2all e h1)
          rcases List.mem_append.mp hmem with hmem | h1
          case inr =>
            obtain ⟨v, hv⟩ := hd2 e h1
            rw [hbus2] at hv
            exact Or.inr (Or.inl ⟨v, hv⟩)
          rcases List.mem_append.mp hmem with h1 | hmem
          · obtain ⟨v, hv⟩ := hw2 e h1
            exact Or.inl ⟨v, hv⟩
          rcases List.mem_cons.mp hmem with rfl | hmem
          · exact Or.inr (Or.inr (Or.inr ⟨0, rfl⟩))
          rcases List.mem_cons.mp hmem with rfl | hmem
          · rw [hbus2]
            exact Or.inl ⟨_, rfl⟩
          · exact absurd hmem (List.not_mem_nil e)
        constructor
        · intro out hout
          obtain ⟨hret, ⟨dv, hdv, hdvb, hdvc, hdvs⟩, Δ2, he1, he2⟩ :=
            hih.1 out hout
          refine ⟨hret, ⟨dv, hdv, by rw [hdvb, hbus2], by rw [hdvc, hctrl2], hdvs⟩,
            ?_⟩
          refine ⟨Event.evFlag 1 :: Δw ++
            [Event.evFlag 0, Event.evInb (dev2.bus + ATA_REG_STATUS)
              (P.inb m1.st (dev2.bus + ATA_REG_STATUS)).1] ++ Δd ++ Δ2, ?_,
            hprod Δ2 he2⟩
          rw [he1, htr3]
          simp
        · intro b2 d2 m2 hout
          obtain ⟨hb, hc, hs, Δ2, he1, he2⟩ := hih.2 b2 d2 m2 hout
          refine ⟨by rw [hb, hbus2], by rw [hc, hctrl2], by rw [hs, hsl2], ?_⟩
          refine ⟨Event.evFlag 1 :: Δw ++
            [Event.evFlag 0, Event.evInb (dev2.bus + ATA_REG_STATUS)
              (P.inb m1.st (dev2.bus + ATA_REG_STATUS)).1] ++ Δd ++ Δ2, ?_,
            hprod Δ2 he2⟩
          rw [he1, htr3]
          simp

theorem ata_write_loop_tr {σ : Type} (P : Ports σ) (fuel : Nat) :
    ∀ (r : Nat) (dev : ata_device) (buff : List Nat) (pos : Nat) (m : M σ)
      (res : Sum (RWOut σ) (ata_device × M σ)),
      ata_write_loop P fuel r dev buff pos m = some res →
      (∀ out, res = Sum.inl out →
        out.ret = -1 ∧
        (∃ dv, out.dev = some dv ∧ dv.bus = dev.bus ∧ dv.ctrl = dev.ctrl ∧
          dv.spinlock = false) ∧
        ∃ Δ, out.tr = m.tr ++ Δ ++ [Event.evLockRel] ∧ ∀ e ∈ Δ, rwLoopEv dev e) ∧
      (∀ d2 m2, res = Sum.inr (d2, m2) →
        d2.bus = dev.bus ∧ d2.ctrl = dev.ctrl ∧ d2.spinlock = dev.spinlock ∧
        ∃ Δ, m2.tr = m.tr ++ Δ ∧ ∀ e ∈ Δ, rwLoopEv dev e) := by
  intro r
  induction r with
  | zero =>
    intro dev buff pos m res h
    rw [ata_write_loop] at h
    have hres := Option.some.inj h
    constructor
    · intro out hout
      rw [hout] at hres
      exact absurd hres (by simp)
    · intro d2 m2 hout
      rw [hout] at hres
      injection hres with hres
      injection hres with hd hm
      subst hd; subst hm
      exact ⟨rfl, rfl, rfl, [], by simp, by simp⟩
  | succ n ih =>
    intro dev buff pos m res h
    rw [ata_write_loop] at h
    rcases hw : ata_wait_ready P fuel dev m with _ | ⟨dev2, m1⟩
    · rw [hw] at h; exact absurd h (by simp)
    · rw [hw] at h
      dsimp only at h
      obtain ⟨hdev2, Δw, hw1, hw2⟩ := ata_wait_ready_tr P fuel dev m dev2 m1 hw
      have hbus2 : dev2.bus = dev.bus := by rw [hdev2]
      have hctrl2 : dev2.ctrl = dev.ctrl := by rw [hdev2]
      have hsl2 : dev2.spinlock = dev.spinlock := by rw [hdev2]
      have herrtr : (ata_has_err P dev2 m1).2.tr =
          m1.tr ++ [Event.evInb (dev2.bus + ATA_REG_STATUS)
            (P.inb m1.st (dev2.bus + ATA_REG_STATUS)).1] := by
        simp [ata_has_err, doInb]
      have hprofix : ∀ e ∈ Event.evFlag 1 :: Δw ++
          [Event.evFlag 0, Event.evInb (dev2.bus + ATA_REG_STATUS)
            (P.inb m1.st (dev2.bus + ATA_REG_STATUS)).1], rwLoopEv dev e := by
        intro e hmem
        rcases List.mem_cons.mp hmem with rfl | hmem
        · exact Or.inr (Or.inr (Or.inr ⟨1, rfl⟩))
        rcases List.mem_append.mp hmem with h1 | hmem
        · obtain ⟨v, hv⟩ := hw2 e h1
          exact Or.inl ⟨v, hv⟩
        rcases List.mem_cons.mp hmem with rfl | hmem
        · exact Or.inr (Or.inr (Or.inr ⟨0, rfl⟩))
        rcases List.mem_cons.mp hmem with rfl | hmem
        · rw [hbus2]
          exact Or.inl ⟨_, rfl⟩
        · exact absurd hmem (List.not_mem_nil e)
      by_cases he : (ata_has_err P dev2 m1).1 ≠ 0
      · rw [if_pos he] at h
        have hres := Option.some.inj h
        constructor
        · intro out hout
          rw [hout] at hres
          injection hres with hres
          refine ⟨?_, ?_, ?_⟩
          · rw [← hres]
          · refine ⟨{dev2 with spinlock := false}, ?_, ?_, ?_, rfl⟩
            · rw [← hres]
            · simp [hbus2]
            · simp [hctrl2]
          · refine ⟨Event.evFlag 1 :: Δw ++
              [Event.evFlag 0, Event.evInb (dev2.bus + ATA_REG_STATUS)
                (P.inb m1.st (dev2.bus + ATA_REG_STATUS)).1], ?_, hprofix⟩
            rw [← hres]
            show (ata_has_err P dev2 m1).2.tr ++ [Event.evLockRel] = _
            rw [herrtr, hw1]
            simp
        · intro d2 m2 hout
          rw [hout] at hres
          exact absurd hres (by simp)
      · rw [if_neg he] at h
        obtain ⟨hpos, Δd, hd1, hd2⟩ := ata_write_words_tr P dev2.bus 256 buff pos
          (ata_has_err P dev2 m1).2
        have hih := ih dev2 buff
          (ata_write_words P dev2.bus 256 buff pos (ata_has_err P dev2 m1).2).1
          (ata_write_words P dev2.bus 256 buff pos (ata_has_err P dev2 m1).2).2
          res h
        have htr3 : (ata_write_words P dev2.bus 256 buff pos
            (ata_has_err P dev2 m1).2).2.tr =
            m.tr ++ (Event.evFlag 1 :: Δw ++
              [Event.evFlag 0, Event.evInb (dev2.bus + ATA_REG_STATUS)
                (P.inb m1.st (dev2.bus + ATA_REG_STATUS)).1] ++ Δd) := by
          rw [hd1, herrtr, hw1]
          simp
        have hprod : ∀ (Δ2 : List Event), (∀ e ∈ Δ2, rwLoopEv dev2 e) →
            ∀ e ∈ Event.evFlag 1 :: Δw ++
            [Event.evFlag 0, Event.evInb (dev2.bus + ATA_REG_STATUS)
              (P.inb m1.st (dev2.bus + ATA_REG_STATUS)).1] ++ Δd ++ Δ2,
            rwLoopEv dev e := by
          intro Δ2 h2all e hmem
          rcases List.mem_cons.mp hmem with rfl | hmem
          · exact Or.inr (Or.inr (Or.inr ⟨1, rfl⟩))
          rcases List.mem_append.mp hmem with hmem | h1
          case inr => exact rwLoopEv_of_eq dev dev2 hbus2 e (h2all e h1)
          rcases List.mem_append.mp hmem with hmem | h1
          case inr =>
            obtain ⟨v, hv⟩ := hd2 e h1
            rw [hbus2] at hv
            exact Or.inr (Or.inr (Or.inl ⟨v, hv⟩))
          rcases List.mem_append.mp hmem with h1 | hmem
          · obtain ⟨v, hv⟩ := hw2 e h1
            exact Or.inl ⟨v, hv⟩
          rcases List.mem_cons.mp hmem with rfl | hmem
          · exact Or.inr (Or.inr (Or.inr ⟨0, rfl⟩))
          rcases List.mem_cons.mp hmem with rfl | hmem
          · rw [hbus2]
            exact Or.inl ⟨_, rfl⟩
          · exact absurd hmem (List.not_mem_nil e)
        constructor
        · intro out hout
          obtain ⟨hret, ⟨dv, hdv, hdvb, hdvc, hdvs⟩, Δ2, he1, he2⟩ :=
            hih.1 out hout
          refine ⟨hret, ⟨dv, hdv, by rw [hdvb, hbus2], by rw [hdvc, hctrl2], hdvs⟩,
            ?_⟩
          refine ⟨Event.evFlag 1 :: Δw ++
            [Event.evFlag 0, Event.evInb (dev2.bus + ATA_REG_STATUS)
              (P.inb m1.st (dev2.bus + ATA_REG_STATUS)).1] ++ Δd ++ Δ2, ?_,
            hprod Δ2 he2⟩
          rw [he1, htr3]
          simp
        · intro d2 m2 hout
          obtain ⟨hb, hc, hs, Δ2, he1, he2⟩ := hih.2 d2 m2 hout
          refine ⟨by rw [hb, hbus2], by rw [hc, hctrl2], by rw [hs, hsl2], ?_⟩
          refine ⟨Event.evFlag 1 :: Δw ++
            [Event.evFlag 0, Event.evInb (dev2.bus + ATA_REG_STATUS)
              (P.inb m1.st (dev2.bus + ATA_REG_STATUS)).1] ++ Δd ++ Δ2, ?_,
            hprod Δ2 he2⟩
          rw [he1, htr3]
          simp

theorem ata_rw_setup_tr {σ : Type} (P : Ports σ) (dev : ata_device)
    (slave : Bool) (lba sectors cmd : Nat) (m : M σ) :
    (ata_rw_setup P dev slave lba sectors cmd m).tr =
      m.tr ++ rwSetupTr dev.bus slave lba sectors cmd := by
  simp [ata_rw_setup, ata_command, doOutb, rwSetupTr]

theorem ata_read_tr_decomp {σ : Type} (P : Ports σ) (fuel : Nat)
    (dev : ata_device) (slave : Bool) (lba : Nat) (buf : List Nat)
    (sectors : Nat) (st : σ) (out : RWOut σ) (hs : sectors ≤ 255)
    (h : ata_read P fuel (some dev) slave lba (some buf) sectors st = some out) :
    ∃ Δ, out.tr = Event.evLockAcq ::
        rwSetupTr dev.bus slave lba sectors ATA_CMD_READ_SECTORS ++ Δ ++
        [Event.evLockRel] ∧
      ∀ e ∈ Δ, rwLoopEv dev e := by
  simp only [ata_read] at h
  rw [if_neg (by omega)] at h
  rcases hl : ata_read_loop P fuel sectors sectors {dev with spinlock := true}
      buf 0 0 (ata_rw_setup P {dev with spinlock := true} slave lba sectors
        ATA_CMD_READ_SECTORS ⟨st, [Event.evLockAcq]⟩) with _ | res
  · rw [hl] at h; exact absurd h (by simp)
  rw [hl] at h
  have hmtr := ata_rw_setup_tr P {dev with spinlock := true} slave lba sectors
    ATA_CMD_READ_SECTORS (⟨st, [Event.evLockAcq]⟩ : M σ)
  have hloop := ata_read_loop_tr P fuel sectors sectors
    {dev with spinlock := true} buf 0 0 _ res (by omega) hl
  cases res with
  | inl out0 =>
    dsimp only at h
    obtain rfl : out0 = out := Option.some.inj h
    obtain ⟨_, _, Δ, htr, hprof⟩ := hloop.1 out0 rfl
    refine ⟨Δ, ?_, hprof⟩
    rw [htr, hmtr]
    simp [rwSetupTr]
  | inr r3 =>
    obtain ⟨b2, d2, m2⟩ := r3
    dsimp only at h
    obtain ⟨hb, hc, hsl, Δ, htr, hprof⟩ := hloop.2 b2 d2 m2 rfl
    have hout : out.tr = m2.tr ++ [Event.evLockRel] := by
      rw [← Option.some.inj h]
    refine ⟨Δ, ?_, hprof⟩
    rw [hout, htr, hmtr]
    simp [rwSetupTr]

theorem ata_write_tr_decomp {σ : Type} (P : Ports σ) (fuel : Nat)
    (dev : ata_device) (slave : Bool) (lba : Nat) (buf : List Nat)
    (sectors : Nat) (st : σ) (out : RWOut σ) (hs : sectors ≤ 255)
    (h : ata_write P fuel (some dev) slave lba (some buf) sectors st = some out) :
    ∃ Δ, out.tr = Event.evLockAcq ::
        rwSetupTr dev.bus slave lba sectors ATA_CMD_WRITE_SECTORS ++ Δ ++
        [Event.evLockRel] ∧
      ∀ e ∈ Δ, (rwLoopEv dev e ∨
        e = Event.evOutb (dev.bus + ATA_REG_COMMAND) ATA_CMD_CACHE_FLUSH) := by
  simp only [ata_write] at h
  rw [if_neg (by omega)] at h
  rcases hl : ata_write_loop P fuel sectors {dev with spinlock := true}
      buf 0 (ata_rw_setup P {dev with spinlock := true} slave lba sectors
        ATA_CMD_WRITE_SECTORS ⟨st, [Event.evLockAcq]⟩) with _ | res
  · rw [hl] at h; exact absurd h (by simp)
  rw [hl] at h
  have hmtr := ata_rw_setup_tr P {dev with spinlock := true} slave lba sectors
    ATA_CMD_WRITE_SECTORS (⟨st, [Event.evLockAcq]⟩ : M σ)
  have hloop := ata_write_loop_tr P fuel sectors
    {dev with spinlock := true} buf 0 _ res hl
  cases res with
  | inl out0 =>
    dsimp only at h
    obtain rfl : out0 = out := Option.some.inj h
    obtain ⟨_, _, Δ, htr, hprof⟩ := hloop.1 out0 rfl
    refine ⟨Δ, ?_, fun e he => Or.inl (hprof e he)⟩
    rw [htr, hmtr]
    simp [rwSetupTr]
  | inr r3 =>
    obtain ⟨d2, m2⟩ := r3
    dsimp only at h
    obtain ⟨hb, hc, hsl, Δ, htr, hprof⟩ := hloop.2 d2 m2 rfl
    have hout : out.tr = (ata_command P d2.bus ATA_CMD_CACHE_FLUSH m2).tr ++
        [Event.evLockRel] := by
      rw [← Option.some.inj h]
    refine ⟨Δ ++ [Event.evOutb (dev.bus + ATA_REG_COMMAND) ATA_CMD_CACHE_FLUSH],
      ?_, ?_⟩
    · rw [hout]
      show (doOutb P (d2.bus + ATA_REG_COMMAND) ATA_CMD_CACHE_FLUSH m2).tr ++ _ = _
      rw [doOutb, htr, hmtr]
      simp only at hb
      rw [hb]
      simp [rwSetupTr]
    · intro e he
      rcases List.mem_append.mp he with h1 | h1
      · exact Or.inl (hprof e h1)
      · exact Or.inr (List.mem_singleton.mp h1)

/-- C5: for every accepted `ata_read`/`ata_write` call (any port double, any
inputs with `sectors ≤ 255`) that returns, the trace after the guard
acquisition starts with exactly the six register-setup writes in order —
drive-select with the slave pattern or'd with LBA bits 24-27, sector count
low byte, sector number, cylinder low, cylinder high, then the 0x20 (read)
or 0x30 (write) command — before anything else, in particular before any
data transfer. -/
theorem claim_C5_setup_order {σ : Type} (P : Ports σ) (fuel : Nat)
    (dev : ata_device) (slave : Bool) (lba : Nat) (buf : List Nat)
    (sectors : Nat) (st : σ) (hs : sectors ≤ 255) :
    (∀ out, ata_read P fuel (some dev) slave lba (some buf) sectors st =
        some out →
      ∃ rest, out.tr = Event.evLockAcq ::
        rwSetupTr dev.bus slave lba sectors ATA_CMD_READ_SECTORS ++ rest) ∧
    (∀ out, ata_write P fuel (some dev) slave lba (some buf) sectors st =
        some out →
      ∃ rest, out.tr = Event.evLockAcq ::
        rwSetupTr dev.bus slave lba sectors ATA_CMD_WRITE_SECTORS ++ rest) := by
  constructor
  · intro out h
    obtain ⟨Δ, htr, _⟩ := ata_read_tr_decomp P fuel dev slave lba buf sectors
      st out hs h
    exact ⟨Δ ++ [Event.evLockRel], by rw [htr]; simp⟩
  · intro out h
    obtain ⟨Δ, htr, _⟩ := ata_write_tr_decomp P fuel dev slave lba buf sectors
      st out hs h
    exact ⟨Δ ++ [Event.evLockRel], by rw [htr]; simp⟩

theorem claim_C5_witness :
    ∃ rest,
      ([Event.evLockAcq, Event.evOutb 0x1f6 0xf0, Event.evOutb 0x1f2 0,
        Event.evOutb 0x1f3 0, Event.evOutb 0x1f4 0, Event.evOutb 0x1f5 0,
        Event.evOutb 0x1f7 0x20, Event.evLockRel] : List Event) =
      Event.evLockAcq ::
        rwSetupTr devW.bus false 0 0 ATA_CMD_READ_SECTORS ++ rest := by
  have h := (claim_C5_setup_order (constPorts 0) 1 devW false 0 [] 0 ()
    (by decide)).1
  exact h ⟨0, some {devW with spinlock := false}, some [], (),
    [Event.evLockAcq, Event.evOutb 0x1f6 0xf0, Event.evOutb 0x1f2 0,
     Event.evOutb 0x1f3 0, Event.evOutb 0x1f4 0, Event.evOutb 0x1f5 0,
     Event.evOutb 0x1f7 0x20, Event.evLockRel]⟩ rfl

/-- C7: the settle-delay branch of the `ata_read` loop (`if i >= sectors`
inside `for i < sectors`) never fires: in every `ata_read` execution (any
port double) the four discard reads of the control port are never performed —
the returned trace contains no byte read of `dev.ctrl` (assuming, as on the
primary controller, that the control port differs from the status port). -/
theorem claim_C7_settle_dead {σ : Type} (P : Ports σ) (fuel : Nat)
    (dev : ata_device) (slave : Bool) (lba : Nat) (buf : List Nat)
    (sectors : Nat) (st : σ) (out : RWOut σ)
    (h : ata_read P fuel (some dev) slave lba (some buf) sectors st = some out)
    (hc : dev.ctrl ≠ dev.bus + ATA_REG_STATUS) :
    ∀ v, Event.evInb dev.ctrl v ∉ out.tr := by
  by_cases hs : sectors ≤ 255
  · obtain ⟨Δ, htr, hprof⟩ := ata_read_tr_decomp P fuel dev slave lba buf
      sectors st out hs h
    intro v hmem
    rw [htr] at hmem
    rcases List.mem_cons.mp hmem with he | hmem
    · exact absurd he (by simp)
    rcases List.mem_append.mp hmem with hmem | he
    · rcases List.mem_append.mp hmem with he | he
      · simp [rwSetupTr] at he
      · rcases hprof _ he with ⟨v2, he2⟩ | ⟨v2, he2⟩ | ⟨v2, he2⟩ | ⟨v2, he2⟩
        · injection he2 with h1 h2
          exact hc h1
        · exact absurd he2 (by simp)
        · exact absurd he2 (by simp)
        · exact absurd he2 (by simp)
    · simp at he
  · simp only [ata_read] at h
    rw [if_pos (by omega)] at h
    obtain rfl : (⟨-1, some dev, some buf, st, []⟩ : RWOut σ) = out :=
      Option.some.inj h
    intro v hmem
    simp at hmem

theorem claim_C7_witness :
    Event.evInb 0x3f6 0 ∉
      ([Event.evLockAcq, Event.evOutb 0x1f6 0xf0, Event.evOutb 0x1f2 0,
        Event.evOutb 0x1f3 0, Event.evOutb 0x1f4 0, Event.evOutb 0x1f5 0,
        Event.evOutb 0x1f7 0x20, Event.evLockRel] : List Event) := by
  have h := claim_C7_settle_dead (constPorts 0) 1 devW false 0 [] 0 ()
    ⟨0, some {devW with spinlock := false}, some [], (),
     [Event.evLockAcq, Event.evOutb 0x1f6 0xf0, Event.evOutb 0x1f2 0,
      Event.evOutb 0x1f3 0, Event.evOutb 0x1f4 0, Event.evOutb 0x1f5 0,
      Event.evOutb 0x1f7 0x20, Event.evLockRel]⟩ rfl (by decide)
  exact h 0

theorem ata_err_check_tr {σ : Type} (P : Ports σ) :
    ∀ (devs : List ata_device) (m : M σ),
      ∃ Δ, (ata_err_check P devs m).2.tr = m.tr ++ Δ ∧
        ∀ v, Event.evFlag v ∈ Δ → v = 0 := by
  intro devs
  induction devs with
  | nil => intro m; exact ⟨[], by simp [ata_err_check], by simp⟩
  | cons d rest ih =>
    intro m
    rw [ata_err_check]
    by_cases hw : d.wait_irq ≠ 0
    · rw [if_pos hw]
      dsimp only
      by_cases he : (ata_has_err P d m).1 ≠ 0
      · rw [if_pos he]
        obtain ⟨Δ, h1, h2⟩ := ih (flagEv 0 (ata_has_err P d m).2)
        refine ⟨[Event.evInb (d.bus + ATA_REG_STATUS)
            (P.inb m.st (d.bus + ATA_REG_STATUS)).1, Event.evFlag 0] ++ Δ,
          ?_, ?_⟩
        · show (ata_err_check P rest (flagEv 0 (ata_has_err P d m).2)).2.tr = _
          rw [h1]
          simp [flagEv, ata_has_err, doInb]
        · intro v hv
          rcases List.mem_append.mp hv with h3 | h3
          · rcases List.mem_cons.mp h3 with h4 | h4
            · exact absurd h4 (by simp)
            · rcases List.mem_cons.mp h4 with h5 | h5
              · injection h5
              · exact absurd h5 (List.not_mem_nil _)
          · exact h2 v h3
      · rw [if_neg he]
        obtain ⟨Δ, h1, h2⟩ := ih (ata_has_err P d m).2
        refine ⟨[Event.evInb (d.bus + ATA_REG_STATUS)
            (P.inb m.st (d.bus + ATA_REG_STATUS)).1] ++ Δ, ?_, ?_⟩
        · show (ata_err_check P rest (ata_has_err P d m).2).2.tr = _
          rw [h1]
          simp [ata_has_err, doInb]
        · intro v hv
          rcases List.mem_append.mp hv with h3 | h3
          · exact absurd h3 (by simp)
          · exact h2 v h3
    · rw [if_neg hw]
      obtain ⟨Δ, h1, h2⟩ := ih m
      exact ⟨Δ, h1, h2⟩

theorem ata_get_type_snd {σ : Type} (P : Ports σ) (dev : ata_device)
    (slave : Bool) (m : M σ) :
    (ata_get_type P (some dev) slave m).2 =
      (doInb P (dev.bus + ATA_REG_CYLINDER_HIGH)
        (doInb P (dev.bus + ATA_REG_CYLINDER_LOW)
          (ata_wait P dev.ctrl (ata_select_drive P dev.bus slave
            (ata_reset P (some dev) m)))).2).2 := by
  rw [ata_get_type]
  split
  · rfl
  · split
    · rfl
    · split
      · rfl
      · split <;> rfl

/-- C6, counterexample.  The claim states the flag is only ever SET by the
interrupt-delivery path (`ata_irq`) and only CLEARED by the guarded waiter
(`ata_wait_ready`) or `ata_err_check`.  The code has the roles reversed: a
concrete `ata_wait_ready` execution — the waiter — performs the set (its
trace holds the arming write `evFlag 1`), while a concrete `ata_irq`
delivery performs a clear (`evFlag 0`), never a set. -/
theorem claim_C6_cex :
    ata_wait_ready simPorts 1 devW ⟨stW, []⟩ =
      some (devW, ⟨stW, [Event.evFlag 1, Event.evInb 0x1f7 0x40,
        Event.evFlag 0]⟩) ∧
    ata_irq [⟨0x1f0, 0x3f6, false, 1⟩] = some ([devW], [Event.evFlag 0]) :=
  ⟨rfl, rfl⟩

/-- C6, amended: the `wait_irq` flag is only ever set (to armed) by the
waiter inside `ata_wait_ready` — which runs under the device's guard when
reached from `ata_read`/`ata_write` — and only ever cleared by `ata_irq`
(whose sole flag write is a clear), by `ata_err_check` (which appends only
clears), or by `ata_wait_ready` itself on exit; `ata_get_type` (with
`ata_reset`) performs no flag write at all, and every flag write of an
accepted `ata_read`/`ata_write` run sits strictly between the guard acquire
and release events of its trace. -/
theorem claim_C6_flag_discipline :
    (∀ (devs : List ata_device) (out : List ata_device × List Event),
      ata_irq devs = some out → out.2 = [Event.evFlag 0]) ∧
    (∀ {σ : Type} (P : Ports σ) (devs : List ata_device) (m : M σ),
      ∃ Δ, (ata_err_check P devs m).2.tr = m.tr ++ Δ ∧
        ∀ v, Event.evFlag v ∈ Δ → v = 0) ∧
    (∀ {σ : Type} (P : Ports σ) (fuel : Nat) (dev : ata_device) (m : M σ)
      (dev2 : ata_device) (m2 : M σ),
      ata_wait_ready P fuel dev m = some (dev2, m2) →
      ∃ Δ, m2.tr = m.tr ++ Event.evFlag 1 :: Δ ++ [Event.evFlag 0] ∧
        ∀ v, Event.evFlag v ∉ Δ) ∧
    (∀ {σ : Type} (P : Ports σ) (dev? : Option ata_device) (slave : Bool)
      (m : M σ),
      ((ata_get_type P dev? slave m).2).tr.countP isFlagEv =
        m.tr.countP isFlagEv) ∧
    (∀ {σ : Type} (P : Ports σ) (fuel : Nat) (dev : ata_device) (slave : Bool)
      (lba : Nat) (buf : List Nat) (sectors : Nat) (st : σ) (out : RWOut σ),
      sectors ≤ 255 →
      ata_read P fuel (some dev) slave lba (some buf) sectors st = some out →
      ∃ Δ, out.tr = Event.evLockAcq :: Δ ++ [Event.evLockRel]) ∧
    (∀ {σ : Type} (P : Ports σ) (fuel : Nat) (dev : ata_device) (slave : Bool)
      (lba : Nat) (buf : List Nat) (sectors : Nat) (st : σ) (out : RWOut σ),
      sectors ≤ 255 →
      ata_write P fuel (some dev) slave lba (some buf) sectors st = some out →
      ∃ Δ, out.tr = Event.evLockAcq :: Δ ++ [Event.evLockRel]) := by
  refine ⟨?_, ?_, ?_, ?_, ?_, ?_⟩
  · intro devs out h
    cases devs with
    | nil => exact absurd h (by simp [ata_irq])
    | cons d rest =>
      rw [ata_irq] at h
      rw [← Option.some.inj h]
  · intro σ P devs m
    exact ata_err_check_tr P devs m
  · intro σ P fuel dev m dev2 m2 h
    obtain ⟨_, Δ, h1, h2⟩ := ata_wait_ready_tr P fuel dev m dev2 m2 h
    refine ⟨Δ, h1, ?_⟩
    intro v hv
    obtain ⟨v2, hv2⟩ := h2 _ hv
    exact absurd hv2 (by simp)
  · intro σ P dev? slave m
    cases dev? with
    | none => rfl
    | some dev =>
      rw [ata_get_type_snd]
      simp [doInb, ata_wait, ata_select_drive, doOutb, ata_reset,
        List.countP_append, isFlagEv]
  · intro σ P fuel dev slave lba buf sectors st out hs h
    obtain ⟨Δ, htr, _⟩ := ata_read_tr_decomp P fuel dev slave lba buf sectors
      st out hs h
    refine ⟨rwSetupTr dev.bus slave lba sectors ATA_CMD_READ_SECTORS ++ Δ, ?_⟩
    rw [htr]
    simp
  · intro σ P fuel dev slave lba buf sectors st out hs h
    obtain ⟨Δ, htr, _⟩ := ata_write_tr_decomp P fuel dev slave lba buf sectors
      st out hs h
    refine ⟨rwSetupTr dev.bus slave lba sectors ATA_CMD_WRITE_SECTORS ++ Δ, ?_⟩
    rw [htr]
    simp

theorem claim_C6_witness :
    [Event.evFlag 0] = [Event.evFlag 0] ∧
    (∃ Δ, ([Event.evFlag 1, Event.evInb 0x1f7 0x40, Event.evFlag 0]
        : List Event) = [] ++ Event.evFlag 1 :: Δ ++ [Event.evFlag 0] ∧
      ∀ v, Event.evFlag v ∉ Δ) := by
  constructor
  · exact claim_C6_flag_discipline.1 [⟨0x1f0, 0x3f6, false, 1⟩]
      ([devW], [Event.evFlag 0]) rfl
  · exact claim_C6_flag_discipline.2.2.1 simPorts 1 devW ⟨stW, []⟩ devW
      ⟨stW, [Event.evFlag 1, Event.evInb 0x1f7 0x40, Event.evFlag 0]⟩ rfl

/-- C8, counterexample.  The claim says a failed registration "returns a
failure result identifying the specific failure kind to its caller".  It does
not: a floating-bus failure and an identify failure return the one and the
same null pointer (`none`) to the caller — the two failure kinds are
indistinguishable in the returned value (the kind reaches only the log). -/
theorem claim_C8_cex :
    (ata_init_device (constPorts 0xff) 1 ⟨1⟩ ATA_PRIMARY_BUS ATA_PRIMARY_CTRL
      ⟨(), []⟩).map (fun r => r.1) = some none ∧
    (ata_init_device (constPorts 0) 1 ⟨1⟩ ATA_PRIMARY_BUS ATA_PRIMARY_CTRL
      ⟨(), []⟩).map (fun r => r.1) = some none :=
  ⟨rfl, rfl⟩

/-- C8, amended: on a floating-bus failure (status reads all-ones) or an
identify failure, `ata_init_device` frees the allocated Device back to the
pool (the pool is restored exactly), returns a *generic* null result to its
caller — the specific failure kind is identified only in the log —, exposes
no Device, and `ata_init` leaves the process-wide device list empty
(no Device added). -/
theorem claim_C8_failure_cleanup (p : Pool) (fuel : Nat) (m : M Unit)
    (hp : 1 ≤ p.free) :
    (∃ mf, ata_init_device (constPorts 0xff) fuel p ATA_PRIMARY_BUS
        ATA_PRIMARY_CTRL m = some (none, p, mf) ∧
      Event.evLog "ATA floating bus detected\n" ∈ mf.tr) ∧
    (∃ mi, ata_init_device (constPorts 0) fuel p ATA_PRIMARY_BUS
        ATA_PRIMARY_CTRL m = some (none, p, mi) ∧
      Event.evLog "ATA identify failed\n" ∈ mi.tr) ∧
    (∃ q mf, ata_init (constPorts 0xff) fuel (some p) m = some ([], q, mf)) ∧
    (∃ q mi, ata_init (constPorts 0) fuel (some p) m = some ([], q, mi)) := by
  obtain ⟨pf⟩ := p
  cases pf with
  | zero => exact absurd hp (by simp)
  | succ f =>
    refine ⟨⟨logEv "ATA floating bus detected\n"
        (ata_check_floating_bus (constPorts 0xff) ATA_PRIMARY_BUS m).2,
        rfl, ?_⟩,
      ⟨logEv "ATA identify failed\n"
        (doInb (constPorts 0) (ATA_PRIMARY_BUS + ATA_REG_STATUS)
          (ata_command (constPorts 0) ATA_PRIMARY_BUS ATA_CMD_IDENTIFY
            (doOutb (constPorts 0) (ATA_PRIMARY_BUS + ATA_REG_CYLINDER_HIGH) 0x0
              (doOutb (constPorts 0) (ATA_PRIMARY_BUS + ATA_REG_CYLINDER_LOW) 0x0
                (doOutb (constPorts 0) (ATA_PRIMARY_BUS + ATA_REG_SECTOR_NUMBER) 0x0
                  (doOutb (constPorts 0) (ATA_PRIMARY_BUS + ATA_REG_SECTOR_COUNT) 0x0
                    (ata_select_drive (constPorts 0) ATA_PRIMARY_BUS false
                      (ata_check_floating_bus (constPorts 0)
                        ATA_PRIMARY_BUS m).2))))))).2,
        rfl, ?_⟩,
      ⟨some ⟨f + 1⟩, _, rfl⟩, ⟨some ⟨f + 1⟩, _, rfl⟩⟩
    · simp [logEv, ata_check_floating_bus, doInb, constPorts]
    · simp [logEv, ata_identify, ata_select_drive, ata_command, doInb, doOutb,
        ata_check_floating_bus, constPorts]

theorem claim_C8_witness :
    (∃ mf, ata_init_device (constPorts 0xff) 1 ⟨1⟩ ATA_PRIMARY_BUS
        ATA_PRIMARY_CTRL ⟨(), []⟩ = some (none, ⟨1⟩, mf) ∧
      Event.evLog "ATA floating bus detected\n" ∈ mf.tr) ∧
    (∃ mi, ata_init_device (constPorts 0) 1 ⟨1⟩ ATA_PRIMARY_BUS
        ATA_PRIMARY_CTRL ⟨(), []⟩ = some (none, ⟨1⟩, mi) ∧
      Event.evLog "ATA identify failed\n" ∈ mi.tr) ∧
    (∃ q mf, ata_init (constPorts 0xff) 1 (some ⟨1⟩) ⟨(), []⟩ =
      some ([], q, mf)) ∧
    (∃ q mi, ata_init (constPorts 0) 1 (some ⟨1⟩) ⟨(), []⟩ =
      some ([], q, mi)) :=
  claim_C8_failure_cleanup ⟨1⟩ 1 ⟨(), []⟩ (by decide)

/-! Evaluation lemmas for the read/write double `simPorts`. -/

theorem getD_set_eq (l : List Nat) (i v : Nat) (h : i < l.length) :
    (l.set i v).getD i 0 = v := by
  rw [List.getD_eq_getElem _ _ (by simpa using h)]
  rw [List.getElem_set_self]

theorem getD_set_ne (l : List Nat) (i j v : Nat) (h : i ≠ j) :
    (l.set i v).getD j 0 = l.getD j 0 := by
  by_cases hj : j < l.length
  · rw [List.getD_eq_getElem _ _ (by simpa using hj),
      List.getD_eq_getElem _ _ hj, List.getElem_set_ne h]
  · rw [List.getD_eq_default _ _ (by simp; omega),
      List.getD_eq_default _ _ (by omega)]

theorem simStatus_rdy (st : SimCtrl) : simStatus st &&& ATA_STATUS_RDY ≠ 0 := by
  rw [simStatus]
  split <;> decide

theorem simStatus_err_none (st : SimCtrl)
    (h : st.errSector ≠ some (st.xferIdx / 256)) :
    simStatus st &&& ATA_STATUS_ERR = 0 := by
  rw [simStatus, if_neg h]
  decide

theorem simStatus_err_hit (st : SimCtrl)
    (h : st.errSector = some (st.xferIdx / 256)) :
    simStatus st &&& ATA_STATUS_ERR = 1 := by
  rw [simStatus, if_pos h]
  decide

theorem ata_wait_ready_sim (fuel : Nat) (dev : ata_device) (st : SimCtrl)
    (tr : List Event) (hf : 1 ≤ fuel) (hb : dev.bus = st.bus) :
    ata_wait_ready simPorts fuel dev ⟨st, tr⟩ =
      some ({dev with wait_irq := 0},
        ⟨st, tr ++ [Event.evFlag 1, Event.evInb (st.bus + 7) (simStatus st),
          Event.evFlag 0]⟩) := by
  obtain ⟨f, rfl⟩ : ∃ f, fuel = f + 1 := ⟨fuel - 1, by omega⟩
  obtain ⟨db, dc, ds, dw⟩ := dev
  simp only at hb
  subst hb
  have hrd := simStatus_rdy st
  simp only [ATA_STATUS_RDY] at hrd
  simp [ata_wait_ready, ata_wait_ready_loop, ata_is_ready, doInb, simPorts,
    simInb, flagEv, ATA_REG_STATUS, ATA_STATUS_RDY, hrd]

theorem ata_has_err_sim (dev : ata_device) (st : SimCtrl) (tr : List Event)
    (hb : dev.bus = st.bus) :
    ata_has_err simPorts dev ⟨st, tr⟩ =
      (simStatus st &&& ATA_STATUS_ERR,
       ⟨st, tr ++ [Event.evInb (st.bus + 7) (simStatus st)]⟩) := by
  obtain ⟨db, dc, ds, dw⟩ := dev
  simp only at hb
  subst hb
  simp [ata_has_err, doInb, simPorts, simInb, ATA_REG_STATUS]

theorem ata_rw_setup_sim (dev : ata_device) (slave : Bool)
    (lba sectors cmd : Nat) (st : SimCtrl) (tr : List Event)
    (hb : dev.bus = st.bus) (hcmd : cmd = 0x20 ∨ cmd = 0x30) :
    ata_rw_setup simPorts dev slave lba sectors cmd ⟨st, tr⟩ =
      ⟨{st with
          regDrive := (if slave then 0xe0 else 0xf0) ||| ((lba >>> 24) &&& 0xf),
          regSectorCount := sectors % 256,
          regSectorNumber := lba % 256,
          regCylLow := (lba >>> 8) % 256,
          regCylHigh := (lba >>> 16) % 256,
          xferLBA := effLBA slave lba,
          xferIdx := 0},
        tr ++ rwSetupTr dev.bus slave lba sectors cmd⟩ := by
  obtain ⟨db, dc, ds, dw⟩ := dev
  obtain ⟨sb, dk, es, rd, rc, rn, rl, rh, xl, xi⟩ := st
  simp only at hb
  subst hb
  rcases hcmd with rfl | rfl <;>
    simp [ata_rw_setup, ata_command, doOutb, simPorts, simOutb, rwSetupTr,
      effLBA, ATA_REG_DRIVE, ATA_REG_SECTOR_COUNT, ATA_REG_SECTOR_NUMBER,
      ATA_REG_CYLINDER_LOW, ATA_REG_CYLINDER_HIGH, ATA_REG_COMMAND,
      ATA_CMD_READ_SECTORS, ATA_CMD_WRITE_SECTORS]

theorem ata_write_words_sim :
    ∀ (c : Nat) (buff : List Nat) (pos : Nat) (st : SimCtrl) (tr : List Event),
      ∃ Δ st2,
        ata_write_words simPorts st.bus c buff pos ⟨st, tr⟩ =
          (pos + c, ⟨st2, tr ++ Δ⟩) ∧
        st2.bus = st.bus ∧ st2.errSector = st.errSector ∧
        st2.xferLBA = st.xferLBA ∧ st2.xferIdx = st.xferIdx + c ∧
        (∀ p, p < 256 * st.xferLBA + st.xferIdx → st2.disk p = st.disk p) ∧
        (∀ p, 256 * st.xferLBA + st.xferIdx + c ≤ p → st2.disk p = st.disk p) ∧
        (∀ j, j < c → st2.disk (256 * st.xferLBA + st.xferIdx + j) =
          buff.getD (pos + j) 0 % 65536) ∧
        dataCount Δ = c := by
  intro c
  induction c with
  | zero =>
    intro buff pos st tr
    refine ⟨[], st, ?_, rfl, rfl, rfl, by omega, fun p _ => rfl, fun p _ => rfl,
      fun j hj => absurd hj (by omega), rfl⟩
    simp [ata_write_words]
  | succ n ih =>
    intro buff pos st tr
    obtain ⟨sb, dk, es, rd, rc, rn, rl, rh, xl, xi⟩ := st
    obtain ⟨Δ, st2, hEq, hbus, herr, hlba, hidx, hlow, hhigh, hwin, hcnt⟩ :=
      ih buff (pos + 1)
        ⟨sb, fun p => if p = 256 * xl + xi then buff.getD pos 0 % 65536
          else dk p, es, rd, rc, rn, rl, rh, xl, xi + 1⟩
        (tr ++ [Event.evOutw sb (buff.getD pos 0)])
    dsimp only at hbus herr hlba hidx hlow hhigh hwin ⊢
    refine ⟨Event.evOutw sb (buff.getD pos 0) :: Δ, st2, ?_, hbus, herr, hlba,
      by omega, ?_, ?_, ?_, ?_⟩
    · rw [show pos + (n + 1) = (pos + 1) + n from by omega,
        List.append_cons tr _ Δ]
      rw [← hEq]
      simp [ata_write_words, doOutw, simPorts, simOutw, ATA_REG_DATA]
    · intro p hp
      rw [hlow p (by omega)]
      rw [if_neg (by omega)]
    · intro p hp
      rw [hhigh p (by omega)]
      rw [if_neg (by omega)]
    · intro j hj
      cases j with
      | zero =>
        rw [show 256 * xl + xi + 0 = 256 * xl + xi from by omega]
        rw [hlow _ (by omega)]
        rw [if_pos rfl]
        rw [show pos + 0 = pos from by omega]
      | succ j2 =>
        have hw2 := hwin j2 (by omega)
        rw [show 256 * xl + xi + (j2 + 1) = 256 * xl + (xi + 1) + j2 from
          by omega, hw2, show pos + 1 + j2 = pos + (j2 + 1) from by omega]
    · simp [dataCount, List.countP_cons, isDataEv] at hcnt ⊢
      omega

theorem ata_read_words_sim :
    ∀ (c : Nat) (buff : List Nat) (pos : Nat) (st : SimCtrl) (tr : List Event),
      ∃ buff2 Δ st2,
        ata_read_words simPorts st.bus c buff pos ⟨st, tr⟩ =
          (buff2, pos + c, ⟨st2, tr ++ Δ⟩) ∧
        st2.bus = st.bus ∧ st2.disk = st.disk ∧ st2.errSector = st.errSector ∧
        st2.xferLBA = st.xferLBA ∧ st2.xferIdx = st.xferIdx + c ∧
        buff2.length = buff.length ∧
        (∀ q, q < pos → buff2.getD q 0 = buff.getD q 0) ∧
        (∀ q, pos + c ≤ q → buff2.getD q 0 = buff.getD q 0) ∧
        (∀ j, j < c → pos + j < buff.length →
          buff2.getD (pos + j) 0 =
            st.disk (256 * st.xferLBA + st.xferIdx + j) % 65536) ∧
        dataCount Δ = c := by
  intro c
  induction c with
  | zero =>
    intro buff pos st tr
    refine ⟨buff, [], st, ?_, rfl, rfl, rfl, rfl, by omega, rfl,
      fun q _ => rfl, fun q _ => rfl, fun j hj _ => absurd hj (by omega), rfl⟩
    simp [ata_read_words]
  | succ n ih =>
    intro buff pos st tr
    obtain ⟨sb, dk, es, rd, rc, rn, rl, rh, xl, xi⟩ := st
    obtain ⟨buff2, Δ, st2, hEq, hbus, hdisk, herr, hlba, hidx, hlen, hlow,
        hhigh, hwin, hcnt⟩ :=
      ih (buff.set pos (dk (256 * xl + xi) % 65536)) (pos + 1)
        ⟨sb, dk, es, rd, rc, rn, rl, rh, xl, xi + 1⟩
        (tr ++ [Event.evInw sb (dk (256 * xl + xi) % 65536)])
    dsimp only at hbus hdisk herr hlba hidx hlow hhigh hwin ⊢
    refine ⟨buff2, Event.evInw sb (dk (256 * xl + xi) % 65536) :: Δ, st2,
      ?_, hbus, hdisk, herr, hlba, by omega,
      by rw [hlen, List.length_set], ?_, ?_, ?_, ?_⟩
    · rw [show pos + (n + 1) = (pos + 1) + n from by omega,
        List.append_cons tr _ Δ]
      rw [← hEq]
      simp [ata_read_words, doInw, simPorts, simInw, ATA_REG_DATA]
    · intro q hq
      rw [hlow q (by omega), getD_set_ne _ _ _ _ (by omega)]
    · intro q hq
      rw [hhigh q (by omega), getD_set_ne _ _ _ _ (by omega)]
    · intro j hj hjl
      cases j with
      | zero =>
        rw [show pos + 0 = pos from by omega]
        rw [hlow pos (by omega)]
        rw [getD_set_eq _ _ _ (by omega), show 256 * xl + xi + 0 = 256 * xl + xi
          from by omega]
      | succ j2 =>
        have hw2 := hwin j2 (by omega) (by rw [List.length_set]; omega)
        rw [show pos + (j2 + 1) = pos + 1 + j2 from by omega, hw2,
          show 256 * xl + (xi + 1) + j2 = 256 * xl + xi + (j2 + 1) from
            by omega]
    · simp [dataCount, List.countP_cons, isDataEv] at hcnt ⊢
      omega

theorem simOutb_flush (st : SimCtrl) : simOutb st (st.bus + 7) 0xe7 = st := by
  rw [simOutb]
  rw [if_neg (by omega), if_neg (by omega), if_neg (by omega),
    if_neg (by omega), if_neg (by omega), if_pos rfl, if_neg (by decide)]

theorem ata_read_loop_sim_ok (fuel sectors : Nat) (hf : 1 ≤ fuel) :
    ∀ (r i : Nat) (dev : ata_device) (buff : List Nat) (pos : Nat)
      (st : SimCtrl) (tr : List Event),
      dev.bus = st.bus →
      st.xferIdx = 256 * i →
      i + r = sectors →
      (∀ j, i ≤ j → j < sectors → st.errSector ≠ some j) →
      pos + 256 * r ≤ buff.length →
      ∃ buff2 dev2 st2 Δ,
        ata_read_loop simPorts fuel sectors r dev buff pos i ⟨st, tr⟩ =
          some (Sum.inr (buff2, dev2, ⟨st2, tr ++ Δ⟩)) ∧
        dev2.bus = dev.bus ∧ dev2.ctrl = dev.ctrl ∧
        dev2.spinlock = dev.spinlock ∧
        st2.bus = st.bus ∧ st2.disk = st.disk ∧
        st2.errSector = st.errSector ∧ st2.xferLBA = st.xferLBA ∧
        buff2.length = buff.length ∧
        (∀ q, q < pos → buff2.getD q 0 = buff.getD q 0) ∧
        (∀ j, j < 256 * r → buff2.getD (pos + j) 0 =
          st.disk (256 * st.xferLBA + 256 * i + j) % 65536) := by
  intro r
  induction r with
  | zero =>
    intro i dev buff pos st tr hb hxi his herr hbd
    refine ⟨buff, dev, st, [], ?_, rfl, rfl, rfl, rfl, rfl, rfl, rfl, rfl,
      fun q _ => rfl, fun j hj => absurd hj (by omega)⟩
    simp [ata_read_loop]
  | succ n ih =>
    intro i dev buff pos st tr hb hxi his herr hbd
    obtain ⟨db, dc2, ds2, dw2⟩ := dev
    obtain ⟨sb, dk, es, rd, rc, rn, rl, rh, xl, xi⟩ := st
    simp only at hb hxi herr
    subst hb
    subst hxi
    have hwait := ata_wait_ready_sim fuel ⟨db, dc2, ds2, dw2⟩
      ⟨db, dk, es, rd, rc, rn, rl, rh, xl, 256 * i⟩ tr hf rfl
    rw [ata_read_loop, hwait]
    dsimp only
    rw [ata_has_err_sim ⟨db, dc2, ds2, 0⟩
      ⟨db, dk, es, rd, rc, rn, rl, rh, xl, 256 * i⟩ _ rfl]
    dsimp only
    have he0 : simStatus ⟨db, dk, es, rd, rc, rn, rl, rh, xl, 256 * i⟩ &&&
        ATA_STATUS_ERR = 0 := by
      apply simStatus_err_none
      dsimp only
      rw [Nat.mul_div_cancel_left i (by omega : 0 < 256)]
      exact herr i (by omega) (by omega)
    rw [he0, if_neg (by decide)]
    obtain ⟨buff3, Δd, st3, hEq3, hbus3, hdisk3, herr3, hlba3, hidx3, hlen3,
        hlow3, hhigh3, hwin3, hcnt3⟩ :=
      ata_read_words_sim 256 buff pos
        ⟨db, dk, es, rd, rc, rn, rl, rh, xl, 256 * i⟩
        ((tr ++ [Event.evFlag 1, Event.evInb (db + 7)
          (simStatus ⟨db, dk, es, rd, rc, rn, rl, rh, xl, 256 * i⟩),
          Event.evFlag 0]) ++ [Event.evInb (db + 7)
          (simStatus ⟨db, dk, es, rd, rc, rn, rl, rh, xl, 256 * i⟩)])
    dsimp only at hbus3 hdisk3 herr3 hlba3 hidx3
    rw [hEq3]
    rw [if_neg (by omega : ¬ i ≥ sectors)]
    obtain ⟨buff2, dev2, st2, Δ2, hEq2, hdb2, hdc2, hds2, hsb2, hdk2, hes2,
        hxl2, hlen2, hlow2, hwin2⟩ :=
      ih (i + 1) ⟨db, dc2, ds2, 0⟩ buff3 (pos + 256) st3 _
        (by rw [hbus3]) (by omega) (by omega)
        (by intro j h1 h2; rw [herr3]; exact herr j (by omega) h2)
        (by rw [hlen3]; omega)
    rw [hEq2]
    refine ⟨buff2, dev2, st2,
      [Event.evFlag 1, Event.evInb (db + 7)
        (simStatus ⟨db, dk, es, rd, rc, rn, rl, rh, xl, 256 * i⟩),
       Event.evFlag 0, Event.evInb (db + 7)
        (simStatus ⟨db, dk, es, rd, rc, rn, rl, rh, xl, 256 * i⟩)] ++
        (Δd ++ Δ2), ?_, by rw [hdb2], by rw [hdc2], by rw [hds2],
      by rw [hsb2, hbus3], by rw [hdk2, hdisk3], by rw [hes2, herr3],
      by rw [hxl2, hlba3], by rw [hlen2, hlen3], ?_, ?_⟩
    · simp
    · intro q hq
      rw [hlow2 q (by omega), hlow3 q (by omega)]
    · intro j hj
      by_cases hj2 : j < 256
      · rw [hlow2 (pos + j) (by omega)]
        have hw3 := hwin3 j hj2 (by omega)
        dsimp only at hw3
        rw [hw3]
      · obtain ⟨j2, rfl⟩ : ∃ j2, j = 256 + j2 := ⟨j - 256, by omega⟩
        have hw2 := hwin2 j2 (by omega)
        rw [hdisk3, hlba3] at hw2
        rw [show pos + (256 + j2) = pos + 256 + j2 from by omega, hw2]
        rw [show 256 * xl + 256 * (i + 1) + j2 = 256 * xl + 256 * i + (256 + j2)
          from by omega]

theorem ata_write_loop_sim_ok (fuel : Nat) (hf : 1 ≤ fuel) :
    ∀ (r i : Nat) (dev : ata_device) (buff : List Nat) (pos : Nat)
      (st : SimCtrl) (tr : List Event),
      dev.bus = st.bus →
      st.xferIdx = 256 * i →
      (∀ j, i ≤ j → j < i + r → st.errSector ≠ some j) →
      ∃ dev2 st2 Δ,
        ata_write_loop simPorts fuel r dev buff pos ⟨st, tr⟩ =
          some (Sum.inr (dev2, ⟨st2, tr ++ Δ⟩)) ∧
        dev2.bus = dev.bus ∧ dev2.ctrl = dev.ctrl ∧
        dev2.spinlock = dev.spinlock ∧
        st2.bus = st.bus ∧ st2.errSector = st.errSector ∧
        st2.xferLBA = st.xferLBA ∧
        (∀ p, p < 256 * st.xferLBA + 256 * i → st2.disk p = st.disk p) ∧
        (∀ p, 256 * st.xferLBA + 256 * i + 256 * r ≤ p →
          st2.disk p = st.disk p) ∧
        (∀ j, j < 256 * r → st2.disk (256 * st.xferLBA + 256 * i + j) =
          buff.getD (pos + j) 0 % 65536) := by
  intro r
  induction r with
  | zero =>
    intro i dev buff pos st tr hb hxi herr
    refine ⟨dev, st, [], ?_, rfl, rfl, rfl, rfl, rfl, rfl,
      fun p _ => rfl, fun p _ => rfl, fun j hj => absurd hj (by omega)⟩
    simp [ata_write_loop]
  | succ n ih =>
    intro i dev buff pos st tr hb hxi herr
    obtain ⟨db, dc2, ds2, dw2⟩ := dev
    obtain ⟨sb, dk, es, rd, rc, rn, rl, rh, xl, xi⟩ := st
    simp only at hb hxi herr
    subst hb
    subst hxi
    have hwait := ata_wait_ready_sim fuel ⟨db, dc2, ds2, dw2⟩
      ⟨db, dk, es, rd, rc, rn, rl, rh, xl, 256 * i⟩ tr hf rfl
    rw [ata_write_loop, hwait]
    dsimp only
    rw [ata_has_err_sim ⟨db, dc2, ds2, 0⟩
      ⟨db, dk, es, rd, rc, rn, rl, rh, xl, 256 * i⟩ _ rfl]
    dsimp only
    have he0 : simStatus ⟨db, dk, es, rd, rc, rn, rl, rh, xl, 256 * i⟩ &&&
        ATA_STATUS_ERR = 0 := by
      apply simStatus_err_none
      dsimp only
      rw [Nat.mul_div_cancel_left i (by omega : 0 < 256)]
      exact herr i (by omega) (by omega)
    rw [he0, if_neg (by decide)]
    obtain ⟨Δd, st3, hEq3, hbus3, herr3, hlba3, hidx3, hlow3, hhigh3, hwin3,
        hcnt3⟩ :=
      ata_write_words_sim 256 buff pos
        ⟨db, dk, es, rd, rc, rn, rl, rh, xl, 256 * i⟩
        ((tr ++ [Event.evFlag 1, Event.evInb (db + 7)
          (simStatus ⟨db, dk, es, rd, rc, rn, rl, rh, xl, 256 * i⟩),
          Event.evFlag 0]) ++ [Event.evInb (db + 7)
          (simStatus ⟨db, dk, es, rd, rc, rn, rl, rh, xl, 256 * i⟩)])
    dsimp only at hbus3 herr3 hlba3 hidx3 hlow3 hhigh3 hwin3
    rw [hEq3]
    obtain ⟨dev2, st2, Δ2, hEq2, hdb2, hdc2, hds2, hsb2, hes2, hxl2, hlow2,
        hhigh2, hwin2⟩ :=
      ih (i + 1) ⟨db, dc2, ds2, 0⟩ buff (pos + 256) st3 _
        (by rw [hbus3]) (by omega)
        (by intro j h1 h2; rw [herr3]; exact herr j (by omega) (by omega))
    rw [hEq2]
    refine ⟨dev2, st2,
      [Event.evFlag 1, Event.evInb (db + 7)
        (simStatus ⟨db, dk, es, rd, rc, rn, rl, rh, xl, 256 * i⟩),
       Event.evFlag 0, Event.evInb (db + 7)
        (simStatus ⟨db, dk, es, rd, rc, rn, rl, rh, xl, 256 * i⟩)] ++
        (Δd ++ Δ2), ?_, by rw [hdb2], by rw [hdc2], by rw [hds2],
      by rw [hsb2, hbus3], by rw [hes2, herr3], by rw [hxl2, hlba3],
      ?_, ?_, ?_⟩
    · simp
    · intro p hp
      rw [hlow2 p (by rw [hlba3]; omega), hlow3 p (by omega)]
    · intro p hp
      rw [hhigh2 p (by rw [hlba3]; omega), hhigh3 p (by omega)]
    · intro j hj
      by_cases hj2 : j < 256
      · rw [hlow2 _ (by rw [hlba3]; omega)]
        have hw3 := hwin3 j hj2
        rw [hw3]
      · obtain ⟨j2, rfl⟩ : ∃ j2, j = 256 + j2 := ⟨j - 256, by omega⟩
        have hw2 := hwin2 j2 (by omega)
        rw [hlba3] at hw2
        rw [show 256 * xl + 256 * i + (256 + j2) =
          256 * xl + 256 * (i + 1) + j2 from by omega, hw2,
          show pos + 256 + j2 = pos + (256 + j2) from by omega]

theorem getD_ext (l1 l2 : List Nat) (hlen : l1.length = l2.length)
    (h : ∀ j, j < l1.length → l1.getD j 0 = l2.getD j 0) : l1 = l2 := by
  apply List.ext_getElem hlen
  intro i h1 h2
  have hj := h i h1
  rw [List.getD_eq_getElem _ _ h1, List.getD_eq_getElem _ _ h2] at hj
  exact hj

/-- C1: round trip against the simulated register/controller double.  For
every sector count `0 < n ≤ 255`, every LBA, slave flag and buffer contents
(16-bit words), a successful `ata_write(dev, slave, lba, buf, n)` followed by
`ata_read(dev, slave, lba, out, n)` on the resulting controller state
returns `out = buf`: the write stores exactly `n * 256` words from `buf` in
order, and the read returns exactly those words. -/
theorem claim_C1_round_trip (fuel n lba : Nat) (slave : Bool)
    (dev : ata_device) (st0 : SimCtrl) (buf out0 : List Nat)
    (hf : 1 ≤ fuel) (hb : dev.bus = st0.bus) (he : st0.errSector = none)
    (hn0 : 0 < n) (hn : n ≤ 255) (hbl : buf.length = 256 * n)
    (hol : out0.length = 256 * n) (hw16 : ∀ w ∈ buf, w < 65536) :
    ∃ w r, ata_write simPorts fuel (some dev) slave lba (some buf) n st0 =
        some w ∧
      w.ret = 0 ∧
      ata_read simPorts fuel (some dev) slave lba (some out0) n w.sim =
        some r ∧
      r.ret = 0 ∧ r.buf = some buf := by
  have hsetup := ata_rw_setup_sim {dev with spinlock := true} slave lba n
    ATA_CMD_WRITE_SECTORS st0 [Event.evLockAcq] hb (Or.inr rfl)
  obtain ⟨dev2, st2, Δ, hEq2, hdb2, hdc2, hds2, hsb2, hes2, hxl2, hlow2,
      hhigh2, hwin2⟩ :=
    ata_write_loop_sim_ok fuel hf n 0 {dev with spinlock := true} buf 0
      {st0 with
        regDrive := (if slave then 0xe0 else 0xf0) ||| ((lba >>> 24) &&& 0xf),
        regSectorCount := n % 256,
        regSectorNumber := lba % 256,
        regCylLow := (lba >>> 8) % 256,
        regCylHigh := (lba >>> 16) % 256,
        xferLBA := effLBA slave lba,
        xferIdx := 0}
      ([Event.evLockAcq] ++
        rwSetupTr dev.bus slave lba n ATA_CMD_WRITE_SECTORS)
      hb rfl (by intro j h1 h2; show st0.errSector ≠ some j; rw [he]; simp)
  have hb2 : dev2.bus = st2.bus := by
    rw [hdb2, hsb2]
    exact hb
  have hwEq : ata_write simPorts fuel (some dev) slave lba (some buf) n
      st0 = some ⟨0, some {dev2 with spinlock := false}, some buf, st2,
        (([Event.evLockAcq] ++
          rwSetupTr dev.bus slave lba n ATA_CMD_WRITE_SECTORS ++ Δ) ++
          [Event.evOutb (st2.bus + ATA_REG_COMMAND) ATA_CMD_CACHE_FLUSH]) ++
          [Event.evLockRel]⟩ := by
    simp only [ata_write]
    rw [if_neg (by omega)]
    rw [hsetup, hEq2]
    dsimp only
    simp only [ata_command, doOutb, simPorts]
    rw [hb2]
    simp only [ATA_REG_COMMAND, ATA_CMD_CACHE_FLUSH]
    rw [simOutb_flush]
  have he2 : st2.errSector = none := by
    rw [hes2]
    exact he
  have hbr : dev.bus = st2.bus := by
    rw [hsb2]
    exact hb
  have hsetup2 := ata_rw_setup_sim {dev with spinlock := true} slave lba n
    ATA_CMD_READ_SECTORS st2 [Event.evLockAcq] hbr (Or.inl rfl)
  obtain ⟨buff2, dev3, st3, Δ3, hEq3, hdb3, hdc3, hds3, hsb3, hdk3, hes3,
      hxl3, hlen3, hlow3, hwin3⟩ :=
    ata_read_loop_sim_ok fuel n hf n 0 {dev with spinlock := true} out0 0
      {st2 with
        regDrive := (if slave then 0xe0 else 0xf0) ||| ((lba >>> 24) &&& 0xf),
        regSectorCount := n % 256,
        regSectorNumber := lba % 256,
        regCylLow := (lba >>> 8) % 256,
        regCylHigh := (lba >>> 16) % 256,
        xferLBA := effLBA slave lba,
        xferIdx := 0}
      ([Event.evLockAcq] ++
        rwSetupTr dev.bus slave lba n ATA_CMD_READ_SECTORS)
      hbr rfl (by omega)
      (by intro j h1 h2; show st2.errSector ≠ some j; rw [he2]; simp)
      (by omega)
  have hrEq : ata_read simPorts fuel (some dev) slave lba (some out0) n
      st2 = some ⟨0, some {dev3 with spinlock := false}, some buff2, st3,
        ([Event.evLockAcq] ++
          rwSetupTr dev.bus slave lba n ATA_CMD_READ_SECTORS ++ Δ3) ++
          [Event.evLockRel]⟩ := by
    simp only [ata_read]
    rw [if_neg (by omega)]
    rw [hsetup2, hEq3]
  refine ⟨⟨0, some {dev2 with spinlock := false}, some buf, st2,
      (([Event.evLockAcq] ++
        rwSetupTr dev.bus slave lba n ATA_CMD_WRITE_SECTORS ++ Δ) ++
        [Event.evOutb (st2.bus + ATA_REG_COMMAND) ATA_CMD_CACHE_FLUSH]) ++
        [Event.evLockRel]⟩,
    ⟨0, some {dev3 with spinlock := false}, some buff2, st3,
      ([Event.evLockAcq] ++
        rwSetupTr dev.bus slave lba n ATA_CMD_READ_SECTORS ++ Δ3) ++
        [Event.evLockRel]⟩,
    hwEq, rfl, hrEq, rfl, ?_⟩
  show some buff2 = some buf
  congr 1
  apply getD_ext
  · rw [hlen3, hol, hbl]
  · intro j hj
    have hjn : j < 256 * n := by
      rw [hlen3, hol] at hj
      exact hj
    have hr3 := hwin3 j hjn
    dsimp only at hr3
    rw [show (0 : Nat) + j = j from by omega,
      show 256 * effLBA slave lba + 256 * 0 + j = 256 * effLBA slave lba + j
        from by omega] at hr3
    have hw2 := hwin2 j hjn
    dsimp only at hw2
    rw [show (0 : Nat) + j = j from by omega,
      show 256 * effLBA slave lba + 256 * 0 + j = 256 * effLBA slave lba + j
        from by omega] at hw2
    have hdisk : st2.disk (256 * effLBA slave lba + j) =
        buf.getD j 0 % 65536 := hw2
    rw [hr3, hdisk]
    have hlt : buf.getD j 0 < 65536 := by
      have hjb : j < buf.length := by omega
      rw [List.getD_eq_getElem _ _ hjb]
      exact hw16 _ (List.getElem_mem hjb)
    rw [Nat.mod_eq_of_lt hlt, Nat.mod_eq_of_lt hlt]

theorem claim_C1_witness :
    ∃ w r, ata_write simPorts 1 (some devW) false 0
        (some (List.replicate 256 7)) 1 stW = some w ∧
      w.ret = 0 ∧
      ata_read simPorts 1 (some devW) false 0
        (some (List.replicate 256 0)) 1 w.sim = some r ∧
      r.ret = 0 ∧ r.buf = some (List.replicate 256 7) :=
  claim_C1_round_trip 1 1 0 false devW stW (List.replicate 256 7)
    (List.replicate 256 0) (by decide) rfl rfl (by decide) (by decide)
    (by rw [List.length_replicate]) (by rw [List.length_replicate])
    (by intro w hw; rw [List.eq_of_mem_replicate hw]; decide)

theorem ata_read_loop_sim_err (fuel sectors : Nat) (hf : 1 ≤ fuel) :
    ∀ (r i k : Nat) (dev : ata_device) (buff : List Nat) (pos : Nat)
      (st : SimCtrl) (tr : List Event),
      dev.bus = st.bus →
      st.xferIdx = 256 * i →
      st.errSector = some k →
      i ≤ k → k < i + r → i + r ≤ sectors →
      pos + 256 * (k - i) ≤ buff.length →
      ∃ buff2 dev2 st2 Δ,
        ata_read_loop simPorts fuel sectors r dev buff pos i ⟨st, tr⟩ =
          some (Sum.inl ⟨-1, some dev2, some buff2, st2, tr ++ Δ⟩) ∧
        dev2.bus = dev.bus ∧ dev2.spinlock = false ∧
        st2.disk = st.disk ∧
        buff2.length = buff.length ∧
        (∀ q, q < pos → buff2.getD q 0 = buff.getD q 0) ∧
        (∀ j, j < 256 * (k - i) → buff2.getD (pos + j) 0 =
          st.disk (256 * st.xferLBA + 256 * i + j) % 65536) ∧
        dataCount Δ = 256 * (k - i) := by
  intro r
  induction r with
  | zero =>
    intro i k dev buff pos st tr hb hxi he hik hkr hrs hbd
    omega
  | succ n ih =>
    intro i k dev buff pos st tr hb hxi he hik hkr hrs hbd
    obtain ⟨db, dc2, ds2, dw2⟩ := dev
    obtain ⟨sb, dk, es, rd, rc, rn, rl, rh, xl, xi⟩ := st
    simp only at hb hxi he
    subst hb
    subst hxi
    subst he
    have hwait := ata_wait_ready_sim fuel ⟨db, dc2, ds2, dw2⟩
      ⟨db, dk, some k, rd, rc, rn, rl, rh, xl, 256 * i⟩ tr hf rfl
    rw [ata_read_loop, hwait]
    dsimp only
    rw [ata_has_err_sim ⟨db, dc2, ds2, 0⟩
      ⟨db, dk, some k, rd, rc, rn, rl, rh, xl, 256 * i⟩ _ rfl]
    dsimp only
    by_cases hk : i = k
    · subst hk
      have hhit : simStatus ⟨db, dk, some i, rd, rc, rn, rl, rh, xl, 256 * i⟩
          &&& ATA_STATUS_ERR = 1 := by
        apply simStatus_err_hit
        dsimp only
        rw [Nat.mul_div_cancel_left i (by omega : 0 < 256)]
      rw [hhit, if_pos (by decide : (1 : Nat) ≠ 0)]
      refine ⟨buff, ⟨db, dc2, false, 0⟩,
        ⟨db, dk, some i, rd, rc, rn, rl, rh, xl, 256 * i⟩,
        [Event.evFlag 1, Event.evInb (db + 7)
          (simStatus ⟨db, dk, some i, rd, rc, rn, rl, rh, xl, 256 * i⟩),
         Event.evFlag 0, Event.evInb (db + 7)
          (simStatus ⟨db, dk, some i, rd, rc, rn, rl, rh, xl, 256 * i⟩),
         Event.evLockRel], ?_, rfl, rfl, rfl, rfl, fun q _ => rfl,
        fun j hj => absurd hj (by omega), ?_⟩
      · dsimp only
        simp
      · simp [dataCount, List.countP_cons, isDataEv]
    · have hmiss : simStatus ⟨db, dk, some k, rd, rc, rn, rl, rh, xl, 256 * i⟩
          &&& ATA_STATUS_ERR = 0 := by
        apply simStatus_err_none
        dsimp only
        rw [Nat.mul_div_cancel_left i (by omega : 0 < 256)]
        simp
        omega
      rw [hmiss, if_neg (by decide)]
      obtain ⟨buff3, Δd, st3, hEq3, hbus3, hdisk3, herr3, hlba3, hidx3, hlen3,
          hlow3, hhigh3, hwin3, hcnt3⟩ :=
        ata_read_words_sim 256 buff pos
          ⟨db, dk, some k, rd, rc, rn, rl, rh, xl, 256 * i⟩
          ((tr ++ [Event.evFlag 1, Event.evInb (db + 7)
            (simStatus ⟨db, dk, some k, rd, rc, rn, rl, rh, xl, 256 * i⟩),
            Event.evFlag 0]) ++ [Event.evInb (db + 7)
            (simStatus ⟨db, dk, some k, rd, rc, rn, rl, rh, xl, 256 * i⟩)])
      dsimp only at hbus3 hdisk3 herr3 hlba3 hidx3
      rw [hEq3]
      rw [if_neg (by omega : ¬ i ≥ sectors)]
      obtain ⟨buff2, dev2, st2, Δ2, hEq2, hdb2, hds2, hdk2, hlen2, hlow2,
          hwin2, hcnt2⟩ :=
        ih (i + 1) k ⟨db, dc2, ds2, 0⟩ buff3 (pos + 256) st3 _
          (by rw [hbus3]) (by omega) (by rw [herr3]) (by omega) (by omega)
          (by omega) (by rw [hlen3]; omega)
      rw [hEq2]
      refine ⟨buff2, dev2, st2,
        [Event.evFlag 1, Event.evInb (db + 7)
          (simStatus ⟨db, dk, some k, rd, rc, rn, rl, rh, xl, 256 * i⟩),
         Event.evFlag 0, Event.evInb (db + 7)
          (simStatus ⟨db, dk, some k, rd, rc, rn, rl, rh, xl, 256 * i⟩)] ++
          (Δd ++ Δ2), ?_, by rw [hdb2], hds2, by rw [hdk2, hdisk3], ?_,
        ?_, ?_, ?_⟩
      · simp
      · rw [hlen2, hlen3]
      · intro q hq
        rw [hlow2 q (by omega), hlow3 q (by omega)]
      · intro j hj
        by_cases hj2 : j < 256
        · rw [hlow2 (pos + j) (by omega)]
          have hw3 := hwin3 j hj2 (by omega)
          dsimp only at hw3
          rw [hw3]
        · obtain ⟨j2, rfl⟩ : ∃ j2, j = 256 + j2 := ⟨j - 256, by omega⟩
          have hw2 := hwin2 j2 (by omega)
          rw [hdisk3, hlba3] at hw2
          rw [show pos + (256 + j2) = pos + 256 + j2 from by omega, hw2]
          rw [show 256 * xl + 256 * (i + 1) + j2 =
            256 * xl + 256 * i + (256 + j2) from by omega]
      · rw [dataCount, List.countP_append, List.countP_append]
        rw [dataCount] at hcnt2
        rw [dataCount] at hcnt3
        simp [List.countP_cons, List.countP_nil, isDataEv]
        rw [hcnt3, hcnt2]
        omega

theorem ata_write_loop_sim_err (fuel : Nat) (hf : 1 ≤ fuel) :
    ∀ (r i k : Nat) (dev : ata_device) (buff : List Nat) (pos : Nat)
      (st : SimCtrl) (tr : List Event),
      dev.bus = st.bus →
      st.xferIdx = 256 * i →
      st.errSector = some k →
      i ≤ k → k < i + r →
      ∃ dev2 st2 Δ,
        ata_write_loop simPorts fuel r dev buff pos ⟨st, tr⟩ =
          some (Sum.inl ⟨-1, some dev2, some buff, st2, tr ++ Δ⟩) ∧
        dev2.bus = dev.bus ∧ dev2.spinlock = false ∧
        (∀ p, p < 256 * st.xferLBA + 256 * i → st2.disk p = st.disk p) ∧
        (∀ p, 256 * st.xferLBA + 256 * i + 256 * (k - i) ≤ p →
          st2.disk p = st.disk p) ∧
        (∀ j, j < 256 * (k - i) →
          st2.disk (256 * st.xferLBA + 256 * i + j) =
            buff.getD (pos + j) 0 % 65536) ∧
        dataCount Δ = 256 * (k - i) := by
  intro r
  induction r with
  | zero =>
    intro i k dev buff pos st tr hb hxi he hik hkr
    omega
  | succ n ih =>
    intro i k dev buff pos st tr hb hxi he hik hkr
    obtain ⟨db, dc2, ds2, dw2⟩ := dev
    obtain ⟨sb, dk, es, rd, rc, rn, rl, rh, xl, xi⟩ := st
    simp only at hb hxi he
    subst hb
    subst hxi
    subst he
    have hwait := ata_wait_ready_sim fuel ⟨db, dc2, ds2, dw2⟩
      ⟨db, dk, some k, rd, rc, rn, rl, rh, xl, 256 * i⟩ tr hf rfl
    rw [ata_write_loop, hwait]
    dsimp only
    rw [ata_has_err_sim ⟨db, dc2, ds2, 0⟩
      ⟨db, dk, some k, rd, rc, rn, rl, rh, xl, 256 * i⟩ _ rfl]
    dsimp only
    by_cases hk : i = k
    · subst hk
      have hhit : simStatus ⟨db, dk, some i, rd, rc, rn, rl, rh, xl, 256 * i⟩
          &&& ATA_STATUS_ERR = 1 := by
        apply simStatus_err_hit
        dsimp only
        rw [Nat.mul_div_cancel_left i (by omega : 0 < 256)]
      rw [hhit, if_pos (by decide : (1 : Nat) ≠ 0)]
      refine ⟨⟨db, dc2, false, 0⟩,
        ⟨db, dk, some i, rd, rc, rn, rl, rh, xl, 256 * i⟩,
        [Event.evFlag 1, Event.evInb (db + 7)
          (simStatus ⟨db, dk, some i, rd, rc, rn, rl, rh, xl, 256 * i⟩),
         Event.evFlag 0, Event.evInb (db + 7)
          (simStatus ⟨db, dk, some i, rd, rc, rn, rl, rh, xl, 256 * i⟩),
         Event.evLockRel], ?_, rfl, rfl, fun p _ => rfl, fun p _ => rfl,
        fun j hj => absurd hj (by omega), ?_⟩
      · dsimp only
        simp
      · simp [dataCount, List.countP_cons, isDataEv]
    · have hmiss : simStatus ⟨db, dk, some k, rd, rc, rn, rl, rh, xl, 256 * i⟩
          &&& ATA_STATUS_ERR = 0 := by
        apply simStatus_err_none
        dsimp only
        rw [Nat.mul_div_cancel_left i (by omega : 0 < 256)]
        simp
        omega
      rw [hmiss, if_neg (by decide)]
      obtain ⟨Δd, st3, hEq3, hbus3, herr3, hlba3, hidx3, hlow3, hhigh3, hwin3,
          hcnt3⟩ :=
        ata_write_words_sim 256 buff pos
          ⟨db, dk, some k, rd, rc, rn, rl, rh, xl, 256 * i⟩
          ((tr ++ [Event.evFlag 1, Event.evInb (db + 7)
            (simStatus ⟨db, dk, some k, rd, rc, rn, rl, rh, xl, 256 * i⟩),
            Event.evFlag 0]) ++ [Event.evInb (db + 7)
            (simStatus ⟨db, dk, some k, rd, rc, rn, rl, rh, xl, 256 * i⟩)])
      dsimp only at hbus3 herr3 hlba3 hidx3 hlow3 hhigh3 hwin3
      rw [hEq3]
      obtain ⟨dev2, st2, Δ2, hEq2, hdb2, hds2, hlow2, hhigh2, hwin2, hcnt2⟩ :=
        ih (i + 1) k ⟨db, dc2, ds2, 0⟩ buff (pos + 256) st3 _
          (by rw [hbus3]) (by omega) (by rw [herr3]) (by omega) (by omega)
      rw [hEq2]
      refine ⟨dev2, st2,
        [Event.evFlag 1, Event.evInb (db + 7)
          (simStatus ⟨db, dk, some k, rd, rc, rn, rl, rh, xl, 256 * i⟩),
         Event.evFlag 0, Event.evInb (db + 7)
          (simStatus ⟨db, dk, some k, rd, rc, rn, rl, rh, xl, 256 * i⟩)] ++
          (Δd ++ Δ2), ?_, by rw [hdb2], hds2, ?_, ?_, ?_, ?_⟩
      · simp
      · intro p hp
        rw [hlow2 p (by rw [hlba3]; omega), hlow3 p (by omega)]
      · intro p hp
        rw [hhigh2 p (by rw [hlba3]; omega), hhigh3 p (by omega)]
      · intro j hj
        by_cases hj2 : j < 256
        · rw [hlow2 _ (by rw [hlba3]; omega)]
          exact hwin3 j hj2
        · obtain ⟨j2, rfl⟩ : ∃ j2, j = 256 + j2 := ⟨j - 256, by omega⟩
          have hw2 := hwin2 j2 (by omega)
          rw [hlba3] at hw2
          rw [show 256 * xl + 256 * i + (256 + j2) =
            256 * xl + 256 * (i + 1) + j2 from by omega, hw2,
            show pos + 256 + j2 = pos + (256 + j2) from by omega]
      · rw [dataCount, List.countP_append, List.countP_append]
        rw [dataCount] at hcnt2
        rw [dataCount] at hcnt3
        simp [List.countP_cons, List.countP_nil, isDataEv]
        rw [hcnt3, hcnt2]
        omega

theorem dataCount_rwSetupTr (bus : Nat) (slave : Bool) (lba sectors cmd : Nat) :
    dataCount (rwSetupTr bus slave lba sectors cmd) = 0 := by
  simp [rwSetupTr, dataCount, List.countP_cons, isDataEv]

/-- C4: against the simulated double whose status register first raises the
error bit at sector `k < n` (observed by the per-sector check that follows
the wait), both `ata_read` and `ata_write` return `-1`, perform exactly
`k * 256` data-register transfers — none for sector `k` or any later sector —
leave the first `k` sectors' data transferred with no rollback (the write has
stored the first `k * 256` words of `buf` on the disk and nothing else; the
read has filled the first `k * 256` words of the caller's buffer), and
release the device's mutual-exclusion guard on the error exit. -/
theorem claim_C4_error_abort (fuel n k lba : Nat) (slave : Bool)
    (dev : ata_device) (st0 : SimCtrl) (buf out0 : List Nat)
    (hf : 1 ≤ fuel) (hb : dev.bus = st0.bus) (he : st0.errSector = some k)
    (hk : k < n) (hn : n ≤ 255) (hol : out0.length = 256 * n) :
    (∃ w, ata_write simPorts fuel (some dev) slave lba (some buf) n st0 =
        some w ∧
      w.ret = -1 ∧
      (∃ dv, w.dev = some dv ∧ dv.spinlock = false) ∧
      dataCount w.tr = 256 * k ∧
      (∀ j, j < 256 * k → w.sim.disk (256 * effLBA slave lba + j) =
        buf.getD j 0 % 65536) ∧
      (∀ p, p < 256 * effLBA slave lba ∨
          256 * effLBA slave lba + 256 * k ≤ p →
        w.sim.disk p = st0.disk p)) ∧
    (∃ r, ata_read simPorts fuel (some dev) slave lba (some out0) n st0 =
        some r ∧
      r.ret = -1 ∧
      (∃ dv, r.dev = some dv ∧ dv.spinlock = false) ∧
      dataCount r.tr = 256 * k ∧
      (∃ ob, r.buf = some ob ∧ ob.length = out0.length ∧
        ∀ j, j < 256 * k → ob.getD j 0 =
          st0.disk (256 * effLBA slave lba + j) % 65536)) := by
  constructor
  · have hsetup := ata_rw_setup_sim {dev with spinlock := true} slave lba n
      ATA_CMD_WRITE_SECTORS st0 [Event.evLockAcq] hb (Or.inr rfl)
    obtain ⟨dev2, st2, Δ, hEq2, hdb2, hds2, hlow2, hhigh2, hwin2, hcnt2⟩ :=
      ata_write_loop_sim_err fuel hf n 0 k {dev with spinlock := true} buf 0
        {st0 with
          regDrive := (if slave then 0xe0 else 0xf0) ||| ((lba >>> 24) &&& 0xf),
          regSectorCount := n % 256,
          regSectorNumber := lba % 256,
          regCylLow := (lba >>> 8) % 256,
          regCylHigh := (lba >>> 16) % 256,
          xferLBA := effLBA slave lba,
          xferIdx := 0}
        ([Event.evLockAcq] ++
          rwSetupTr dev.bus slave lba n ATA_CMD_WRITE_SECTORS)
        hb rfl (by show st0.errSector = some k; exact he) (by omega)
        (by omega)
    have hwEq : ata_write simPorts fuel (some dev) slave lba (some buf) n
        st0 = some ⟨-1, some dev2, some buf, st2,
          ([Event.evLockAcq] ++
            rwSetupTr dev.bus slave lba n ATA_CMD_WRITE_SECTORS) ++ Δ⟩ := by
      simp only [ata_write]
      rw [if_neg (by omega)]
      rw [hsetup, hEq2]
    refine ⟨_, hwEq, rfl, ⟨dev2, rfl, hds2⟩, ?_, ?_, ?_⟩
    · show dataCount (([Event.evLockAcq] ++
        rwSetupTr dev.bus slave lba n ATA_CMD_WRITE_SECTORS) ++ Δ) = 256 * k
      rw [dataCount, List.countP_append, List.countP_append]
      rw [dataCount] at hcnt2
      have hs0 := dataCount_rwSetupTr dev.bus slave lba n ATA_CMD_WRITE_SECTORS
      rw [dataCount] at hs0
      rw [hs0, hcnt2]
      simp [List.countP_cons, isDataEv]
    · intro j hj
      have hw2 := hwin2 j (by omega)
      dsimp only at hw2
      rw [show (0 : Nat) + j = j from by omega,
        show 256 * effLBA slave lba + 256 * 0 + j = 256 * effLBA slave lba + j
          from by omega] at hw2
      exact hw2
    · intro p hp
      rcases hp with hp | hp
      · have hl2 := hlow2 p (by dsimp only; omega)
        dsimp only at hl2
        exact hl2
      · have hh2 := hhigh2 p (by dsimp only; omega)
        dsimp only at hh2
        exact hh2
  · have hsetup := ata_rw_setup_sim {dev with spinlock := true} slave lba n
      ATA_CMD_READ_SECTORS st0 [Event.evLockAcq] hb (Or.inl rfl)
    obtain ⟨buff2, dev2, st2, Δ, hEq2, hdb2, hds2, hdk2, hlen2, hlow2, hwin2,
        hcnt2⟩ :=
      ata_read_loop_sim_err fuel n hf n 0 k {dev with spinlock := true} out0 0
        {st0 with
          regDrive := (if slave then 0xe0 else 0xf0) ||| ((lba >>> 24) &&& 0xf),
          regSectorCount := n % 256,
          regSectorNumber := lba % 256,
          regCylLow := (lba >>> 8) % 256,
          regCylHigh := (lba >>> 16) % 256,
          xferLBA := effLBA slave lba,
          xferIdx := 0}
        ([Event.evLockAcq] ++
          rwSetupTr dev.bus slave lba n ATA_CMD_READ_SECTORS)
        hb rfl (by show st0.errSector = some k; exact he) (by omega)
        (by omega) (by omega) (by omega)
    have hrEq : ata_read simPorts fuel (some dev) slave lba (some out0) n
        st0 = some ⟨-1, some dev2, some buff2, st2,
          ([Event.evLockAcq] ++
            rwSetupTr dev.bus slave lba n ATA_CMD_READ_SECTORS) ++ Δ⟩ := by
      simp only [ata_read]
      rw [if_neg (by omega)]
      rw [hsetup, hEq2]
    refine ⟨_, hrEq, rfl, ⟨dev2, rfl, hds2⟩, ?_, ⟨buff2, rfl, hlen2, ?_⟩⟩
    · show dataCount (([Event.evLockAcq] ++
        rwSetupTr dev.bus slave lba n ATA_CMD_READ_SECTORS) ++ Δ) = 256 * k
      rw [dataCount, List.countP_append, List.countP_append]
      rw [dataCount] at hcnt2
      have hs0 := dataCount_rwSetupTr dev.bus slave lba n ATA_CMD_READ_SECTORS
      rw [dataCount] at hs0
      rw [hs0, hcnt2]
      simp [List.countP_cons, isDataEv]
    · intro j hj
      have hw2 := hwin2 j (by omega)
      dsimp only at hw2
      rw [show (0 : Nat) + j = j from by omega,
        show 256 * effLBA slave lba + 256 * 0 + j = 256 * effLBA slave lba + j
          from by omega] at hw2
      exact hw2

theorem claim_C4_witness :
    (∃ w, ata_write simPorts 1 (some devW) false 0
        (some (List.replicate 256 9)) 1 stWerr = some w ∧
      w.ret = -1 ∧
      (∃ dv, w.dev = some dv ∧ dv.spinlock = false) ∧
      dataCount w.tr = 256 * 0 ∧
      (∀ j, j < 256 * 0 → w.sim.disk (256 * effLBA false 0 + j) =
        (List.replicate 256 9).getD j 0 % 65536) ∧
      (∀ p, p < 256 * effLBA false 0 ∨ 256 * effLBA false 0 + 256 * 0 ≤ p →
        w.sim.disk p = stWerr.disk p)) ∧
    (∃ r, ata_read simPorts 1 (some devW) false 0
        (some (List.replicate 256 0)) 1 stWerr = some r ∧
      r.ret = -1 ∧
      (∃ dv, r.dev = some dv ∧ dv.spinlock = false) ∧
      dataCount r.tr = 256 * 0 ∧
      (∃ ob, r.buf = some ob ∧ ob.length = (List.replicate 256 0).length ∧
        ∀ j, j < 256 * 0 → ob.getD j 0 =
          stWerr.disk (256 * effLBA false 0 + j) % 65536)) :=
  claim_C4_error_abort 1 1 0 0 false devW stWerr (List.replicate 256 9)
    (List.replicate 256 0) (by decide) rfl rfl (by decide) (by decide)
    (by rw [List.length_replicate])

end Ata
